import Mathlib

/-!
Verification of the AnonChat server core (server/index.js, "production fixes"
variant) against its natural-language specification.

The JavaScript classes `SessionManager`, `ReputationSystem`, `SmartMatchmaking`,
the module-level `checkRateLimit` / `validatePayload` / `sanitize` helpers, the
room-cleanup helpers and the socket handlers (`sendMessage`, `reportUser`,
`skipMatch`, disconnect) are shallowly embedded below.  JS `Map`s are modelled
as association lists that preserve insertion order (`Map.set` overwrites in
place, `Map.delete` removes the entry), JS `Set<string>` as duplicate-free
`List String` with insertion-order `add`/`delete`.  `Date.now()` timestamps are
`Int` milliseconds, passed explicitly to every operation that reads the clock.
Fractional JS arithmetic (the 0.7/0.3 response-time average, the 0.95 decay
factor, the `/1000` compatibility weight) is modelled with exact rationals, and
`Math.floor` by rational floor / `Int.fdiv`.
-/

namespace AnonChat

/-- Insertion-ordered map lookup (JS `Map.get`): first entry with the key. -/
def mlookup {κ α : Type} [DecidableEq κ] : List (κ × α) → κ → Option α
  | [], _ => none
  | (k, v) :: rest, key => if k = key then some v else mlookup rest key

/-- Insertion-ordered map write (JS `Map.set`): overwrite in place, else append. -/
def mset {κ α : Type} [DecidableEq κ] : List (κ × α) → κ → α → List (κ × α)
  | [], key, val => [(key, val)]
  | (k, v) :: rest, key, val =>
      if k = key then (k, val) :: rest else (k, v) :: mset rest key val

/-- Map entry removal (JS `Map.delete`): removes the entry with the key. -/
def mdel {κ α : Type} [DecidableEq κ] : List (κ × α) → κ → List (κ × α)
  | [], _ => []
  | (k, v) :: rest, key => if k = key then rest else (k, v) :: mdel rest key

/-- JS `Set.add` on a string set kept in insertion order. -/
def sadd (s : List String) (x : String) : List String :=
  if x ∈ s then s else s ++ [x]

/-- JS `Set.delete`. -/
def sdel (s : List String) (x : String) : List String :=
  s.filter (· ≠ x)

theorem mlookup_mset {κ α : Type} [DecidableEq κ] (l : List (κ × α))
    (k key : κ) (v : α) :
    mlookup (mset l k v) key = if k = key then some v else mlookup l key := by
  induction l with
  | nil => simp [mset, mlookup]
  | cons hd tl ih =>
      obtain ⟨k', v'⟩ := hd
      simp only [mset]
      by_cases hk : k' = k
      · subst hk
        by_cases hky : k' = key <;> simp [mlookup, hky]
      · rw [if_neg hk]
        by_cases hky : k' = key
        · subst hky
          have hk2 : ¬ k = k' := fun h => hk h.symm
          simp [mlookup, hk2]
        · simp [mlookup, hky, ih]

theorem mlookup_mset_self {κ α : Type} [DecidableEq κ] (l : List (κ × α))
    (k : κ) (v : α) : mlookup (mset l k v) k = some v := by
  rw [mlookup_mset, if_pos rfl]

theorem mlookup_mset_ne {κ α : Type} [DecidableEq κ] (l : List (κ × α))
    (k key : κ) (v : α) (h : key ≠ k) :
    mlookup (mset l k v) key = mlookup l key := by
  rw [mlookup_mset, if_neg (fun h2 => h h2.symm)]

theorem mlookup_mdel_ne {κ α : Type} [DecidableEq κ] (l : List (κ × α))
    (k key : κ) (h : key ≠ k) :
    mlookup (mdel l k) key = mlookup l key := by
  induction l with
  | nil => simp [mdel]
  | cons hd tl ih =>
      obtain ⟨k', v'⟩ := hd
      simp only [mdel]
      by_cases hk : k' = k
      · subst hk
        have hk2 : ¬ k' = key := fun h2 => h h2.symm
        simp [mlookup, hk2]
      · by_cases hky : k' = key <;> simp [mlookup, hk, hky, ih, h]

theorem mem_of_mem_mset {κ α : Type} [DecidableEq κ] {l : List (κ × α)}
    {k : κ} {v : α} {x : κ × α} (h : x ∈ mset l k v) :
    x ∈ l ∨ x = (k, v) := by
  induction l with
  | nil => simpa [mset] using h
  | cons hd tl ih =>
      obtain ⟨k', v'⟩ := hd
      simp only [mset] at h
      by_cases hk : k' = k
      · rw [if_pos hk] at h
        rcases List.mem_cons.mp h with h | h
        · right; rw [h, hk]
        · left; exact List.mem_cons_of_mem _ h
      · rw [if_neg hk] at h
        rcases List.mem_cons.mp h with h | h
        · left; exact h ▸ List.mem_cons_self _ _
        · rcases ih h with h | h
          · left; exact List.mem_cons_of_mem _ h
          · right; exact h

theorem mem_of_mlookup {κ α : Type} [DecidableEq κ] {l : List (κ × α)}
    {key : κ} {v : α} (h : mlookup l key = some v) : (key, v) ∈ l := by
  induction l with
  | nil => simp [mlookup] at h
  | cons hd tl ih =>
      obtain ⟨k', v'⟩ := hd
      simp only [mlookup] at h
      by_cases hk : k' = key
      · rw [if_pos hk] at h
        cases h
        exact hk ▸ List.mem_cons_self _ _
      · rw [if_neg hk] at h
        exact List.mem_cons_of_mem _ (ih h)

/-! ## ReputationSystem (class `ReputationSystem`) -/

/-- One reputation record (`this.reputations` map values). -/
structure Rep where
  score : Int
  messageCount : Int
  avgResponseTime : ℚ
  skipCount : Int
  reportCount : Int
  spamScore : Int
  lastActivity : Int
  createdAt : Int
deriving DecidableEq, Repr

def INITIAL_SCORE : Int := 100

/-- The record `initializeReputation` installs for an unknown user. -/
def freshRep (now : Int) : Rep :=
  { score := INITIAL_SCORE
    messageCount := 0
    avgResponseTime := 0
    skipCount := 0
    reportCount := 0
    spamScore := 0
    lastActivity := now
    createdAt := now }

abbrev RepMap := List (String × Rep)

/-- `initializeReputation(userId)`: create the record if absent (idempotent). -/
def initializeReputation (st : RepMap) (now : Int) (u : String) : RepMap :=
  if (mlookup st u).isSome then st else mset st u (freshRep now)

/-- `getReputation(userId)`: return the record, lazily creating it. -/
def getReputation (st : RepMap) (now : Int) (u : String) : Rep × RepMap :=
  match mlookup st u with
  | some r => (r, st)
  | none => (freshRep now, mset st u (freshRep now))

/-- `recordMessage(userId, isSpam)`. -/
def recordMessage (st : RepMap) (now : Int) (u : String) (isSpam : Bool) :
    RepMap :=
  let p := getReputation st now u
  let r1 : Rep :=
    { p.1 with messageCount := p.1.messageCount + 1, lastActivity := now }
  let r2 : Rep :=
    if isSpam then
      { r1 with spamScore := r1.spamScore + 10, score := max 0 (r1.score - 5) }
    else if r1.spamScore > 0 then
      { r1 with spamScore := max 0 (r1.spamScore - 1) }
    else r1
  mset p.2 u r2

/-- `recordResponseTime(userId, responseTimeMs)` (0.7/0.3 moving average). -/
def recordResponseTime (st : RepMap) (now : Int) (u : String) (ms : ℚ) :
    RepMap :=
  let p := getReputation st now u
  let r : Rep :=
    if p.1.avgResponseTime = 0 then { p.1 with avgResponseTime := ms }
    else { p.1 with
            avgResponseTime := p.1.avgResponseTime * (7 / 10) + ms * (3 / 10) }
  mset p.2 u r

/-- `recordSkip(userId)`. -/
def recordSkip (st : RepMap) (now : Int) (u : String) : RepMap :=
  let p := getReputation st now u
  mset p.2 u
    { p.1 with
        skipCount := p.1.skipCount + 1
        score := max 0 (p.1.score - 3)
        lastActivity := now }

/-- `recordReport(userId)`. -/
def recordReport (st : RepMap) (now : Int) (u : String) : RepMap :=
  let p := getReputation st now u
  mset p.2 u
    { p.1 with
        reportCount := p.1.reportCount + 1
        score := max 0 (p.1.score - 15)
        lastActivity := now }

/-- `isToxic(userId)` read off one record. -/
def toxicRep (r : Rep) : Bool :=
  r.score < 30 || r.reportCount > 3 || r.spamScore > 50

/-- `getMatchmakingPriority(userId)` read off one record: `Math.floor(score/20)`. -/
def priorityOf (r : Rep) : Int :=
  Int.fdiv r.score 20

/-- One record's update inside `decayReputations` (the non-deletion branch).
`Math.floor(x * 0.95)` is modelled as the exact rational floor `⌊x·95/100⌋`. -/
def decayRep (r : Rep) : Rep :=
  { r with
      skipCount := Int.fdiv (r.skipCount * 95) 100
      spamScore := Int.fdiv (r.spamScore * 95) 100
      score := if r.score < INITIAL_SCORE then min INITIAL_SCORE (r.score + 1)
               else r.score }

/-- `decayReputations()`: delete records inactive for 24h, decay the rest. -/
def decayReputations (st : RepMap) (now : Int) : RepMap :=
  st.filterMap fun p =>
    if now - p.2.lastActivity > 86400000 then none
    else some (p.1, decayRep p.2)

/-- The operations of the ReputationSystem, each tagged with the wall-clock
instant at which it runs. -/
inductive RepOp where
  | init (u : String)
  | message (u : String) (isSpam : Bool)
  | skip (u : String)
  | report (u : String)
  | responseTime (u : String) (ms : ℚ)
  | decay
deriving DecidableEq, Repr

def applyRepOp (st : RepMap) : RepOp × Int → RepMap
  | (RepOp.init u, now) => initializeReputation st now u
  | (RepOp.message u isSpam, now) => recordMessage st now u isSpam
  | (RepOp.skip u, now) => recordSkip st now u
  | (RepOp.report u, now) => recordReport st now u
  | (RepOp.responseTime u ms, now) => recordResponseTime st now u ms
  | (RepOp.decay, now) => decayReputations st now

def runRepOps (st : RepMap) (ops : List (RepOp × Int)) : RepMap :=
  ops.foldl applyRepOp st

/-- The score invariant of claim C1: every stored record is within bounds. -/
def scoreInv (st : RepMap) : Prop :=
  ∀ p ∈ st, 0 ≤ p.2.score ∧ p.2.score ≤ 100

theorem scoreInv_nil : scoreInv [] := by
  intro p hp
  simp at hp

theorem freshRep_bounds (now : Int) :
    0 ≤ (freshRep now).score ∧ (freshRep now).score ≤ 100 := by
  norm_num [freshRep, INITIAL_SCORE]

theorem scoreInv_mset {st : RepMap} (h : scoreInv st) {u : String} {r : Rep}
    (hr : 0 ≤ r.score ∧ r.score ≤ 100) : scoreInv (mset st u r) := by
  intro p hp
  rcases mem_of_mem_mset hp with hp | hp
  · exact h p hp
  · rw [hp]; exact hr

theorem scoreInv_getReputation {st : RepMap} (h : scoreInv st) (now : Int)
    (u : String) :
    (0 ≤ (getReputation st now u).1.score
      ∧ (getReputation st now u).1.score ≤ 100)
      ∧ scoreInv (getReputation st now u).2 := by
  unfold getReputation
  cases hv : mlookup st u with
  | some r => exact ⟨h (u, r) (mem_of_mlookup hv), h⟩
  | none =>
      exact ⟨freshRep_bounds now, scoreInv_mset h (freshRep_bounds now)⟩

theorem scoreInv_applyRepOp {st : RepMap} (h : scoreInv st) (op : RepOp × Int) :
    scoreInv (applyRepOp st op) := by
  obtain ⟨op, now⟩ := op
  cases op with
  | init u =>
      simp only [applyRepOp, initializeReputation]
      split
      · exact h
      · exact scoreInv_mset h (freshRep_bounds now)
  | message u isSpam =>
      obtain ⟨⟨h0, h100⟩, hst⟩ := scoreInv_getReputation h now u
      simp only [applyRepOp, recordMessage]
      apply scoreInv_mset hst
      split
      · exact ⟨le_max_left _ _, max_le (by norm_num) (by omega)⟩
      · split <;> exact ⟨h0, h100⟩
  | skip u =>
      obtain ⟨⟨h0, h100⟩, hst⟩ := scoreInv_getReputation h now u
      simp only [applyRepOp, recordSkip]
      exact scoreInv_mset hst ⟨le_max_left _ _, max_le (by norm_num) (by omega)⟩
  | report u =>
      obtain ⟨⟨h0, h100⟩, hst⟩ := scoreInv_getReputation h now u
      simp only [applyRepOp, recordReport]
      exact scoreInv_mset hst ⟨le_max_left _ _, max_le (by norm_num) (by omega)⟩
  | responseTime u ms =>
      obtain ⟨⟨h0, h100⟩, hst⟩ := scoreInv_getReputation h now u
      simp only [applyRepOp, recordResponseTime]
      apply scoreInv_mset hst
      split <;> exact ⟨h0, h100⟩
  | decay =>
      intro p hp
      simp only [applyRepOp, decayReputations] at hp
      rw [List.mem_filterMap] at hp
      obtain ⟨q, hq, hfq⟩ := hp
      by_cases hdel : now - q.2.lastActivity > 86400000
      · rw [if_pos hdel] at hfq
        cases hfq
      · rw [if_neg hdel] at hfq
        obtain ⟨hq0, hq100⟩ := h q hq
        cases hfq
        simp only [decayRep, INITIAL_SCORE]
        constructor
        · split <;> omega
        · split <;> omega

theorem scoreInv_runRepOps {st : RepMap} (h : scoreInv st)
    (ops : List (RepOp × Int)) : scoreInv (runRepOps st ops) := by
  induction ops generalizing st with
  | nil => exact h
  | cons op ops ih => exact ih (scoreInv_applyRepOp h op)

/-- C1: starting from an empty reputation store, every finite sequence of
ReputationSystem operations (`initializeReputation`, `recordMessage` with or
without the spam flag, `recordSkip`, `recordReport`, `recordResponseTime`,
`decayReputations`) leaves every user's score within `[0, 100]`. -/
theorem reputation_score_bounded (ops : List (RepOp × Int)) (u : String)
    (r : Rep) (h : mlookup (runRepOps [] ops) u = some r) :
    0 ≤ r.score ∧ r.score ≤ 100 :=
  scoreInv_runRepOps scoreInv_nil ops (u, r) (mem_of_mlookup h)

/-- Witness for C1 at a concrete operation sequence: a report followed by a
skip leaves user "a" at score 82, inside the bounds. -/
theorem reputation_score_bounded_witness :
    mlookup (runRepOps []
        [(RepOp.report "a", 0), (RepOp.skip "a", 1)]) "a"
      = some { score := 82, messageCount := 0, avgResponseTime := 0,
               skipCount := 1, reportCount := 1, spamScore := 0,
               lastActivity := 1, createdAt := 0 }
    ∧ (0 ≤ (82 : Int) ∧ (82 : Int) ≤ 100) := by
  constructor
  · rfl
  · exact reputation_score_bounded
      [(RepOp.report "a", 0), (RepOp.skip "a", 1)] "a" _ rfl

/-! ## SessionManager (class `SessionManager`) -/

/-- A JS value as far as the payload validator / handlers observe it:
strings, numbers (integral here), booleans, and `undefined` for missing keys. -/
inductive JsVal where
  | vstr (s : String)
  | vnum (n : Int)
  | vbool (b : Bool)
  | vundef
deriving DecidableEq, Repr

/-- The message objects built by the `sendMessage` handler and buffered in
sessions.  `roomId` is whatever the payload carried (possibly `undefined`). -/
structure Msg where
  id : String
  roomId : JsVal
  senderId : String
  senderName : String
  message : String
  timestamp : Int
deriving DecidableEq, Repr

def SESSION_TTL : Int := 60000

def MESSAGE_BUFFER_SIZE : Nat := 20

structure Session where
  token : String
  socketId : String
  userId : String
  username : String
  createdAt : Int
  lastActivity : Int
  currentRoom : Option String
  currentMatch : Option String
  messageBuffer : List Msg
  reconnectCount : Int
deriving DecidableEq, Repr

structure SMState where
  sessions : List (String × Session)
  socketToSession : List (String × String)
deriving DecidableEq, Repr

/-- `createSession(socketId, userId, username)`.  The crypto-random token is
modelled as a caller-supplied argument. -/
def createSession (st : SMState) (now : Int)
    (token socketId userId username : String) : SMState :=
  { sessions :=
      (mset st.sessions token
        { token := token, socketId := socketId, userId := userId
          username := username, createdAt := now, lastActivity := now
          currentRoom := none, currentMatch := none
          messageBuffer := [], reconnectCount := 0 })
    socketToSession := mset st.socketToSession socketId token }

/-- `updateSession(token, updates)`: `Object.assign(session, updates,
{lastActivity: Date.now()})`; the `updates` object is a field transformer. -/
def updateSession (st : SMState) (now : Int) (token : String)
    (upd : Session → Session) : Bool × SMState :=
  match mlookup st.sessions token with
  | some s =>
      (true,
        { st with sessions :=
            (mset st.sessions token { (upd s) with lastActivity := now }) })
  | none => (false, st)

/-- The buffer step of `addMessageToBuffer`: push, then shift if over capacity. -/
def bufPush (buf : List Msg) (m : Msg) : List Msg :=
  let b := buf ++ [m]
  if b.length > MESSAGE_BUFFER_SIZE then b.tail else b

/-- `addMessageToBuffer(token, message)`. -/
def addMessageToBuffer (st : SMState) (token : String) (m : Msg) : SMState :=
  match mlookup st.sessions token with
  | some s =>
      { st with sessions :=
          (mset st.sessions token
            { s with messageBuffer := bufPush s.messageBuffer m }) }
  | none => st

/-- `getSession(token)`: the session, unless absent or expired. -/
def getSession (st : SMState) (now : Int) (token : String) : Option Session :=
  match mlookup st.sessions token with
  | some s => if now - s.lastActivity < SESSION_TTL then some s else none
  | none => none

/-- `reconnectSession(token, newSocketId)`. -/
def reconnectSession (st : SMState) (now : Int) (token newSocketId : String) :
    Option Session × SMState :=
  match getSession st now token with
  | some s =>
      let s2 : Session :=
        { s with socketId := newSocketId
                 reconnectCount := s.reconnectCount + 1
                 lastActivity := now }
      (some s2,
        { sessions := mset st.sessions token s2
          socketToSession :=
            (mset (mdel st.socketToSession s.socketId) newSocketId token) })
  | none => (none, st)

/-- `deleteSession(token)`. -/
def deleteSession (st : SMState) (token : String) : SMState :=
  match mlookup st.sessions token with
  | some s =>
      { sessions := mdel st.sessions token
        socketToSession := mdel st.socketToSession s.socketId }
  | none => st

/-- `cleanupExpiredSessions()`, the 30-second sweep. -/
def cleanupExpiredSessions (st : SMState) (now : Int) : SMState :=
  st.sessions.foldl
    (fun acc p =>
      if now - p.2.lastActivity > SESSION_TTL then deleteSession acc p.1
      else acc)
    st

/-- C2: a session whose `lastActivity` lies more than the 60s TTL in the past
is unreachable: `getSession` returns null and `reconnectSession` returns null
and changes nothing, in any store state — whether or not the periodic sweep
has already purged the entry. -/
theorem expired_session_unreachable (st : SMState) (now : Int)
    (token newSocketId : String)
    (h : ∀ s, mlookup st.sessions token = some s →
          now - s.lastActivity > SESSION_TTL) :
    getSession st now token = none
      ∧ (reconnectSession st now token newSocketId).1 = none
      ∧ (reconnectSession st now token newSocketId).2 = st := by
  have hg : getSession st now token = none := by
    unfold getSession
    cases hv : mlookup st.sessions token with
    | none => rfl
    | some s =>
        have hs := h s hv
        simp only
        rw [if_neg (by omega)]
  refine ⟨hg, ?_, ?_⟩ <;> simp [reconnectSession, hg]

def sessC2 : Session :=
  { token := "tok", socketId := "sock1", userId := "u", username := "alice"
    createdAt := 0, lastActivity := 0, currentRoom := none
    currentMatch := none, messageBuffer := [], reconnectCount := 0 }

def stC2 : SMState :=
  { sessions := [("tok", sessC2)], socketToSession := [("sock1", "tok")] }

/-- Witness for C2: a session last active at t=0 queried at t=60001. -/
theorem expired_session_unreachable_witness :
    getSession stC2 60001 "tok" = none
      ∧ (reconnectSession stC2 60001 "tok" "sock2").1 = none
      ∧ (reconnectSession stC2 60001 "tok" "sock2").2 = stC2 :=
  expired_session_unreachable stC2 60001 "tok" "sock2" (by
    intro s hs
    have h0 : mlookup stC2.sessions "tok" = some sessC2 := rfl
    rw [h0] at hs
    cases hs
    decide)

theorem foldl_bufPush (ms : List Msg) :
    ∀ buf : List Msg, buf.length ≤ 20 →
      ms.foldl bufPush buf = (buf ++ ms).drop (buf.length + ms.length - 20) := by
  induction ms with
  | nil =>
      intro buf hb
      simp [Nat.sub_eq_zero_of_le (by simpa using hb)]
  | cons m ms ih =>
      intro buf hb
      simp only [List.foldl_cons]
      by_cases hlen : buf.length = 20
      · cases buf with
        | nil => simp at hlen
        | cons b bs =>
            have hbs : bs.length = 19 := by
              simp at hlen
              omega
            have hstep : bufPush (b :: bs) m = bs ++ [m] := by
              unfold bufPush MESSAGE_BUFFER_SIZE
              rw [if_pos (by simp [hbs])]
              simp
            rw [hstep, ih _ (by simp [hbs])]
            simp [hbs]
      · have hlt : buf.length < 20 := lt_of_le_of_ne hb hlen
        have hstep : bufPush buf m = buf ++ [m] := by
          unfold bufPush MESSAGE_BUFFER_SIZE
          rw [if_neg (by simp; omega)]
        rw [hstep, ih _ (by simp; omega)]
        have harith : (buf ++ [m]).length + ms.length - 20
            = buf.length + (m :: ms).length - 20 := by
          simp
          omega
        rw [harith, List.append_assoc]
        simp

def appendAll (st : SMState) (token : String) (ms : List Msg) : SMState :=
  ms.foldl (fun acc m => addMessageToBuffer acc token m) st

theorem appendAll_lookup (ms : List Msg) :
    ∀ (st : SMState) (token : String) (s : Session),
      mlookup st.sessions token = some s →
      mlookup (appendAll st token ms).sessions token
        = some { s with messageBuffer := ms.foldl bufPush s.messageBuffer } := by
  induction ms with
  | nil =>
      intro st token s hs
      simpa [appendAll] using hs
  | cons m ms ih =>
      intro st token s hs
      have hstep : addMessageToBuffer st token m
          = { st with sessions :=
                (mset st.sessions token
                  { s with messageBuffer := bufPush s.messageBuffer m }) } := by
        unfold addMessageToBuffer
        rw [hs]
      have hlk : mlookup (addMessageToBuffer st token m).sessions token
          = some { s with messageBuffer := bufPush s.messageBuffer m } := by
        rw [hstep]
        exact mlookup_mset_self _ _ _
      have := ih (addMessageToBuffer st token m) token _ hlk
      simpa [appendAll] using this

/-- C9: from a session whose buffer starts empty, any sequence of
`addMessageToBuffer` calls leaves exactly the (at most 20) most recently
appended messages, in append order; appending a 21st message evicts exactly
the oldest. -/
theorem message_buffer_fifo_bounded (st : SMState) (token : String)
    (s : Session) (hs : mlookup st.sessions token = some s)
    (hbuf : s.messageBuffer = []) (ms : List Msg) :
    ∃ s2, mlookup (appendAll st token ms).sessions token = some s2
      ∧ s2.messageBuffer = ms.drop (ms.length - 20)
      ∧ s2.messageBuffer.length ≤ 20 := by
  refine ⟨_, appendAll_lookup ms st token s hs, ?_, ?_⟩
  · simp only [hbuf]
    rw [foldl_bufPush ms [] (by simp)]
    simp
  · simp only [hbuf]
    rw [foldl_bufPush ms [] (by simp)]
    simp only [List.nil_append, List.length_drop]
    omega

def msgN (i : Int) : Msg :=
  { id := "m", roomId := JsVal.vundef, senderId := "u", senderName := "alice"
    message := "hello", timestamp := i }

def msgsC9 : List Msg :=
  (List.range 21).map fun i => msgN i

/-- Witness for C9: appending 21 distinct messages to a fresh session keeps
the last 20 (the first message, timestamp 0, is evicted). -/
theorem message_buffer_fifo_bounded_witness :
    ∃ s2, mlookup (appendAll stC2 "tok" msgsC9).sessions "tok" = some s2
      ∧ s2.messageBuffer = msgsC9.drop (msgsC9.length - 20)
      ∧ s2.messageBuffer.length ≤ 20 :=
  message_buffer_fifo_bounded stC2 "tok" sessC2 rfl rfl msgsC9

/-! ## SmartMatchmaking (class `SmartMatchmaking`) -/

/-- `this.userMetadata` map values. -/
structure MMeta where
  priority : Int
  joinedAt : Int
  activityLevel : Int
  responseSpeed : ℚ
deriving DecidableEq, Repr

structure MMState where
  waitingQueue : List (Int × List String)
  userMetadata : List (String × MMeta)
  activeMatches : List (String × (String × String × Int))
deriving DecidableEq, Repr

def mmEmpty : MMState :=
  { waitingQueue := [], userMetadata := [], activeMatches := [] }

/-- `calculateActivityLevel(reputation)`. -/
def calculateActivityLevel (r : Rep) : Int :=
  if r.messageCount < 10 then 25
  else if r.messageCount < 50 then 50
  else if r.messageCount < 200 then 75
  else 100

structure AddResult where
  success : Bool
  reason : Option String
  priority : Option Int
deriving DecidableEq, Repr

/-- `addToQueue(userId)`: reads the (lazily created) reputation record,
refuses toxic users, otherwise adds the user to the bucket of their priority
and overwrites their metadata.  NOTE: no removal from any previous bucket. -/
def addToQueue (mm : MMState) (rp : RepMap) (now : Int) (u : String) :
    MMState × RepMap × AddResult :=
  let p := getReputation rp now u
  if toxicRep p.1 then
    (mm, p.2,
      { success := false, reason := some "reputation_too_low", priority := none })
  else
    let priority := priorityOf p.1
    let q := (mlookup mm.waitingQueue priority).getD []
    ({ mm with
        waitingQueue := (mset mm.waitingQueue priority (sadd q u))
        userMetadata :=
          (mset mm.userMetadata u
            { priority := priority, joinedAt := now
              activityLevel := calculateActivityLevel p.1
              responseSpeed := p.1.avgResponseTime }) },
      p.2,
      { success := true, reason := none, priority := some priority })

/-- `removeFromQueue(userId)`. -/
def removeFromQueue (mm : MMState) (u : String) : MMState :=
  match mlookup mm.userMetadata u with
  | none => mm
  | some meta =>
      let mm2 :=
        match mlookup mm.waitingQueue meta.priority with
        | none => mm
        | some q =>
            let q2 := sdel q u
            if q2.length = 0 then
              { mm with waitingQueue := mdel mm.waitingQueue meta.priority }
            else
              { mm with waitingQueue := (mset mm.waitingQueue meta.priority q2) }
      { mm2 with userMetadata := mdel mm2.userMetadata u }

/-- The compatibility score of `findMatchInPriority`:
`|activityLevel difference| + |joinedAt difference| / 1000`, exactly. -/
def compatScore (a b : MMeta) : ℚ :=
  ((|a.activityLevel - b.activityLevel| : Int) : ℚ)
    + ((|a.joinedAt - b.joinedAt| : Int) : ℚ) / 1000

/-- One iteration of the best-candidate loop in `findMatchInPriority`
(`bestScore` starts at `Infinity`, modelled by the `none` accumulator). -/
def bestStep (mm : MMState) (userMeta : MMeta)
    (best : Option (String × ℚ)) (c : String) : Option (String × ℚ) :=
  match mlookup mm.userMetadata c with
  | none => best
  | some cm =>
      let score := compatScore userMeta cm
      match best with
      | none => some (c, score)
      | some b => if score < b.2 then some (c, score) else best

/-- `findMatchInPriority(userId, priority, userMeta)`. -/
def findMatchInPriority (mm : MMState) (u : String) (priority : Int)
    (userMeta : MMeta) : Option String :=
  match mlookup mm.waitingQueue priority with
  | none => none
  | some q =>
      if q.length < 2 then none
      else
        let candidates := q.filter (· ≠ u)
        if candidates.isEmpty then none
        else (candidates.foldl (bestStep mm userMeta) none).map Prod.fst

/-- The candidate-selection part of `findMatch(userId)`: same bucket first,
then priority−1 (if > 0), then priority+1 (if < 5). -/
def findMatchPartner (mm : MMState) (u : String) : Option String :=
  match mlookup mm.userMetadata u with
  | none => none
  | some meta =>
      let m1 := findMatchInPriority mm u meta.priority meta
      let m2 :=
        if m1 = none ∧ meta.priority > 0 then
          findMatchInPriority mm u (meta.priority - 1) meta
        else m1
      let m3 :=
        if m2 = none ∧ meta.priority < 5 then
          findMatchInPriority mm u (meta.priority + 1) meta
        else m2
      m3

/-- `findMatch(userId)`: on success both entries leave the queue and an
active match opens (the fresh uuid `matchId` is a parameter). -/
def findMatch (mm : MMState) (u : String) (matchId : String) (now : Int) :
    MMState × Option (String × String) :=
  match findMatchPartner mm u with
  | none => (mm, none)
  | some partner =>
      let mm2 := removeFromQueue (removeFromQueue mm u) partner
      ({ mm2 with
          activeMatches := (mset mm2.activeMatches matchId (u, partner, now)) },
        some (matchId, partner))

/-- `endMatch(matchId)`. -/
def endMatch (mm : MMState) (matchId : String) : MMState :=
  { mm with activeMatches := mdel mm.activeMatches matchId }

theorem bestFold_some (mm : MMState) (meta : MMeta) (l : List String)
    (acc : Option (String × ℚ)) (c : String) (sc : ℚ)
    (h : l.foldl (bestStep mm meta) acc = some (c, sc)) :
    acc = some (c, sc)
      ∨ (c ∈ l ∧ ∃ cm, mlookup mm.userMetadata c = some cm
          ∧ sc = compatScore meta cm) := by
  induction l generalizing acc with
  | nil => left; simpa using h
  | cons d l ih =>
      simp only [List.foldl_cons] at h
      rcases ih _ h with hacc | hmem
      · unfold bestStep at hacc
        cases hd : mlookup mm.userMetadata d with
        | none =>
            rw [hd] at hacc
            left
            exact hacc
        | some dm =>
            rw [hd] at hacc
            cases acc with
            | none =>
                simp only at hacc
                injection hacc with hpair
                have hc : d = c := congrArg Prod.fst hpair
                have hsc : compatScore meta dm = sc := congrArg Prod.snd hpair
                subst hc
                right
                exact ⟨List.mem_cons_self _ _, dm, hd, hsc.symm⟩
            | some b =>
                simp only at hacc
                by_cases hlt : compatScore meta dm < b.2
                · rw [if_pos hlt] at hacc
                  injection hacc with hpair
                  have hc : d = c := congrArg Prod.fst hpair
                  have hsc : compatScore meta dm = sc := congrArg Prod.snd hpair
                  subst hc
                  right
                  exact ⟨List.mem_cons_self _ _, dm, hd, hsc.symm⟩
                · rw [if_neg hlt] at hacc
                  left
                  exact hacc
      · right
        exact ⟨List.mem_cons_of_mem _ hmem.1, hmem.2⟩

theorem bestFold_min (mm : MMState) (meta : MMeta) (l : List String)
    (acc : Option (String × ℚ)) (c : String) (sc : ℚ)
    (h : l.foldl (bestStep mm meta) acc = some (c, sc)) :
    (∀ b bsc, acc = some (b, bsc) → sc ≤ bsc)
      ∧ (∀ d ∈ l, ∀ dm, mlookup mm.userMetadata d = some dm →
          sc ≤ compatScore meta dm) := by
  induction l generalizing acc with
  | nil =>
      simp only [List.foldl_nil] at h
      constructor
      · intro b bsc hb
        rw [h] at hb
        injection hb with hpair
        exact le_of_eq (congrArg Prod.snd hpair)
      · intro d hd
        simp at hd
  | cons d l ih =>
      simp only [List.foldl_cons] at h
      obtain ⟨hstep, hrest⟩ := ih _ h
      have hkey : ∀ b bsc, acc = some (b, bsc) → sc ≤ bsc := by
        intro b bsc hb
        subst hb
        unfold bestStep at hstep
        cases hd : mlookup mm.userMetadata d with
        | none =>
            rw [hd] at hstep
            exact hstep b bsc rfl
        | some dm =>
            rw [hd] at hstep
            simp only at hstep
            by_cases hlt : compatScore meta dm < bsc
            · rw [if_pos hlt] at hstep
              exact le_of_lt (lt_of_le_of_lt (hstep d (compatScore meta dm) rfl) hlt)
            · rw [if_neg hlt] at hstep
              exact hstep b bsc rfl
      refine ⟨hkey, ?_⟩
      intro e he dm hdm
      rcases List.mem_cons.mp he with he | he
      · subst he
        have hstep2 := hstep
        unfold bestStep at hstep2
        rw [hdm] at hstep2
        cases acc with
        | none =>
            simp only at hstep2
            exact hstep2 e (compatScore meta dm) rfl
        | some b =>
            simp only at hstep2
            by_cases hlt : compatScore meta dm < b.2
            · rw [if_pos hlt] at hstep2
              exact hstep2 e (compatScore meta dm) rfl
            · rw [if_neg hlt] at hstep2
              exact le_trans (hstep2 b.1 b.2 rfl) (not_lt.mp hlt)
      · exact hrest e he dm hdm

theorem findMatchInPriority_spec (mm : MMState) (u : String) (p : Int)
    (meta : MMeta) (c : String)
    (h : findMatchInPriority mm u p meta = some c) :
    ∃ q, mlookup mm.waitingQueue p = some q ∧ 2 ≤ q.length ∧ c ∈ q ∧ c ≠ u
      ∧ ∃ cm, mlookup mm.userMetadata c = some cm
        ∧ ∀ d ∈ q, d ≠ u → ∀ dm, mlookup mm.userMetadata d = some dm →
            compatScore meta cm ≤ compatScore meta dm := by
  unfold findMatchInPriority at h
  cases hq : mlookup mm.waitingQueue p with
  | none => rw [hq] at h; cases h
  | some q =>
      rw [hq] at h
      simp only at h
      by_cases hlen : q.length < 2
      · rw [if_pos hlen] at h; cases h
      · rw [if_neg hlen] at h
        by_cases hemp : (q.filter (· ≠ u)).isEmpty
        · rw [if_pos hemp] at h; cases h
        · rw [if_neg hemp] at h
          cases hf : (q.filter (· ≠ u)).foldl (bestStep mm meta) none with
          | none => rw [hf] at h; cases h
          | some pr =>
              rw [hf] at h
              simp only [Option.map_some'] at h
              injection h with hcc
              subst hcc
              rcases bestFold_some mm meta _ none pr.1 pr.2 hf
                with hbad | ⟨hcmem, cm, hcm, hsc⟩
              · cases hbad
              · have hcq := List.mem_filter.mp hcmem
                have hcu : pr.1 ≠ u := by simpa using hcq.2
                obtain ⟨_, hmin⟩ := bestFold_min mm meta _ none pr.1 pr.2 hf
                refine ⟨q, rfl, by omega, hcq.1, hcu, cm, hcm, ?_⟩
                intro d hd hdu dm hdm
                have hdc : d ∈ q.filter (· ≠ u) :=
                  List.mem_filter.mpr ⟨hd, by simpa using hdu⟩
                have hle := hmin d hdc dm hdm
                rw [← hsc]
                exact hle

theorem findMatchInPriority_small (mm : MMState) (u : String) (p : Int)
    (meta : MMeta)
    (h : ∀ q, mlookup mm.waitingQueue p = some q → q.length < 2) :
    findMatchInPriority mm u p meta = none := by
  unfold findMatchInPriority
  cases hq : mlookup mm.waitingQueue p with
  | none => rfl
  | some q =>
      simp only
      rw [if_pos (h q hq)]

theorem findMatchPartner_cases (mm : MMState) (u : String) (meta : MMeta)
    (hm : mlookup mm.userMetadata u = some meta) (c : String)
    (h : findMatchPartner mm u = some c) :
    findMatchInPriority mm u meta.priority meta = some c
      ∨ findMatchInPriority mm u (meta.priority - 1) meta = some c
      ∨ findMatchInPriority mm u (meta.priority + 1) meta = some c := by
  unfold findMatchPartner at h
  rw [hm] at h
  simp only at h
  cases h1 : findMatchInPriority mm u meta.priority meta with
  | some x =>
      rw [h1] at h
      simp at h
      left
      rw [h]
  | none =>
      rw [h1] at h
      simp only [eq_self_iff_true, true_and] at h
      by_cases hp : meta.priority > 0
      · rw [if_pos hp] at h
        cases h2 : findMatchInPriority mm u (meta.priority - 1) meta with
        | some y =>
            rw [h2] at h
            simp at h
            right; left
            rw [h]
        | none =>
            rw [h2] at h
            simp only [eq_self_iff_true, true_and] at h
            by_cases hp5 : meta.priority < 5
            · rw [if_pos hp5] at h
              right; right
              exact h
            · rw [if_neg hp5] at h
              cases h
      · rw [if_neg hp] at h
        simp only [eq_self_iff_true, true_and] at h
        by_cases hp5 : meta.priority < 5
        · rw [if_pos hp5] at h
          right; right
          exact h
        · rw [if_neg hp5] at h
          cases h

theorem findMatchPartner_none_of_probes (mm : MMState) (u : String)
    (meta : MMeta) (hm : mlookup mm.userMetadata u = some meta)
    (h1 : findMatchInPriority mm u meta.priority meta = none)
    (h2 : findMatchInPriority mm u (meta.priority - 1) meta = none)
    (h3 : findMatchInPriority mm u (meta.priority + 1) meta = none) :
    findMatchPartner mm u = none := by
  unfold findMatchPartner
  rw [hm]
  simp only [h1, h2, h3, true_and]
  split <;> split <;> rfl

def metaA : MMeta :=
  { priority := 3, joinedAt := 0, activityLevel := 25, responseSpeed := 0 }

def metaB : MMeta :=
  { priority := 2, joinedAt := 0, activityLevel := 25, responseSpeed := 0 }

def mmC3 : MMState :=
  { waitingQueue := [(3, ["alice"]), (2, ["bob"])]
    userMetadata := [("alice", metaA), ("bob", metaB)]
    activeMatches := [] }

/-- Counterexample to C3 as stated: user "alice" (priority 3) waits alone in
bucket 3 and "bob" waits alone in bucket 2; the claim demands that findMatch
return "bob", but the `queue.size < 2` guard skips the singleton adjacent
bucket, so no partner is found. -/
theorem findMatch_lone_adjacent_counterexample :
    mlookup mmC3.userMetadata "alice" = some metaA
      ∧ metaA.priority = 3
      ∧ mlookup mmC3.waitingQueue 3 = some ["alice"]
      ∧ mlookup mmC3.waitingQueue 2 = some ["bob"]
      ∧ findMatchPartner mmC3 "alice" = none
      ∧ (findMatch mmC3 "alice" "match-1" 0).2 = none := by
  refine ⟨rfl, rfl, rfl, rfl, rfl, rfl⟩

theorem findMatchPartner_own_bucket (mm : MMState) (u : String)
    (meta : MMeta) (hm : mlookup mm.userMetadata u = some meta) (c : String)
    (h1 : findMatchInPriority mm u meta.priority meta = some c) :
    findMatchPartner mm u = some c := by
  unfold findMatchPartner
  rw [hm]
  simp [h1]

theorem findMatchPartner_lower_bucket (mm : MMState) (u : String)
    (meta : MMeta) (hm : mlookup mm.userMetadata u = some meta)
    (hp : meta.priority > 0)
    (h1 : findMatchInPriority mm u meta.priority meta = none) (c : String)
    (h2 : findMatchInPriority mm u (meta.priority - 1) meta = some c) :
    findMatchPartner mm u = some c := by
  unfold findMatchPartner
  rw [hm]
  simp [h1, h2, hp]

theorem findMatchPartner_upper_bucket (mm : MMState) (u : String)
    (meta : MMeta) (hm : mlookup mm.userMetadata u = some meta)
    (hp5 : meta.priority < 5)
    (h1 : findMatchInPriority mm u meta.priority meta = none)
    (h2 : meta.priority > 0 →
      findMatchInPriority mm u (meta.priority - 1) meta = none) (c : String)
    (h3 : findMatchInPriority mm u (meta.priority + 1) meta = some c) :
    findMatchPartner mm u = some c := by
  unfold findMatchPartner
  rw [hm]
  by_cases hp : meta.priority > 0
  · simp [h1, h2 hp, hp5, h3]
  · simp [h1, hp, hp5, h3]

/-- C3 (amended): for a queued user with metadata `meta`, (1) whenever a
bucket probe `findMatchInPriority` succeeds, the returned candidate lies in
that bucket, differs from the searcher, and minimises the compatibility score
`|activityLevel diff| + |joinedAt diff|/1000` among all candidates of that
bucket with metadata; (2) any partner returned by the search comes from
bucket `priority`, `priority−1` or `priority+1` and never from any other
bucket; the probes are taken in exactly that order: (4) a successful
own-bucket probe decides the partner, (5) the `priority−1` probe decides it
only once the own bucket fails (and `priority > 0`), and (6) the
`priority+1` probe only once both earlier probes fail (and `priority < 5`);
but (3) a candidate bucket holding fewer than two queued users is skipped
entirely, so — contrary to the original claim — when the searcher's own
bucket has no other member and exactly one user waits in bucket `priority−1`
(and `priority+1` also lacks two members), findMatch returns no partner
rather than that lone user. -/
theorem findMatch_search_order_and_min (mm : MMState) (u : String)
    (meta : MMeta) (hm : mlookup mm.userMetadata u = some meta) :
    (∀ p c, findMatchInPriority mm u p meta = some c →
        ∃ q, mlookup mm.waitingQueue p = some q ∧ 2 ≤ q.length ∧ c ∈ q
          ∧ c ≠ u
          ∧ ∃ cm, mlookup mm.userMetadata c = some cm
            ∧ ∀ d ∈ q, d ≠ u → ∀ dm, mlookup mm.userMetadata d = some dm →
                compatScore meta cm ≤ compatScore meta dm)
      ∧ (∀ c, findMatchPartner mm u = some c →
          findMatchInPriority mm u meta.priority meta = some c
            ∨ findMatchInPriority mm u (meta.priority - 1) meta = some c
            ∨ findMatchInPriority mm u (meta.priority + 1) meta = some c)
      ∧ ((∀ q, mlookup mm.waitingQueue meta.priority = some q → q.length < 2) →
         (∀ q, mlookup mm.waitingQueue (meta.priority - 1) = some q →
            q.length < 2) →
         (∀ q, mlookup mm.waitingQueue (meta.priority + 1) = some q →
            q.length < 2) →
         findMatchPartner mm u = none)
      ∧ (∀ c, findMatchInPriority mm u meta.priority meta = some c →
          findMatchPartner mm u = some c)
      ∧ (findMatchInPriority mm u meta.priority meta = none →
          meta.priority > 0 →
          ∀ c, findMatchInPriority mm u (meta.priority - 1) meta = some c →
            findMatchPartner mm u = some c)
      ∧ (findMatchInPriority mm u meta.priority meta = none →
          (meta.priority > 0 →
            findMatchInPriority mm u (meta.priority - 1) meta = none) →
          meta.priority < 5 →
          ∀ c, findMatchInPriority mm u (meta.priority + 1) meta = some c →
            findMatchPartner mm u = some c) := by
  refine ⟨?_, ?_, ?_, ?_, ?_, ?_⟩
  · intro p c h
    exact findMatchInPriority_spec mm u p meta c h
  · intro c h
    exact findMatchPartner_cases mm u meta hm c h
  · intro hs1 hs2 hs3
    exact findMatchPartner_none_of_probes mm u meta hm
      (findMatchInPriority_small mm u _ meta hs1)
      (findMatchInPriority_small mm u _ meta hs2)
      (findMatchInPriority_small mm u _ meta hs3)
  · intro c h1
    exact findMatchPartner_own_bucket mm u meta hm c h1
  · intro h1 hp c h2
    exact findMatchPartner_lower_bucket mm u meta hm hp h1 c h2
  · intro h1 h2 hp5 c h3
    exact findMatchPartner_upper_bucket mm u meta hm hp5 h1 h2 c h3

/-- Witness for the amended C3 at the concrete counterexample state. -/
theorem findMatch_search_order_and_min_witness :
    (∀ p c, findMatchInPriority mmC3 "alice" p metaA = some c →
        ∃ q, mlookup mmC3.waitingQueue p = some q ∧ 2 ≤ q.length ∧ c ∈ q
          ∧ c ≠ "alice"
          ∧ ∃ cm, mlookup mmC3.userMetadata c = some cm
            ∧ ∀ d ∈ q, d ≠ "alice" →
                ∀ dm, mlookup mmC3.userMetadata d = some dm →
                  compatScore metaA cm ≤ compatScore metaA dm)
      ∧ (∀ c, findMatchPartner mmC3 "alice" = some c →
          findMatchInPriority mmC3 "alice" metaA.priority metaA = some c
            ∨ findMatchInPriority mmC3 "alice" (metaA.priority - 1) metaA
                = some c
            ∨ findMatchInPriority mmC3 "alice" (metaA.priority + 1) metaA
                = some c)
      ∧ ((∀ q, mlookup mmC3.waitingQueue metaA.priority = some q →
            q.length < 2) →
         (∀ q, mlookup mmC3.waitingQueue (metaA.priority - 1) = some q →
            q.length < 2) →
         (∀ q, mlookup mmC3.waitingQueue (metaA.priority + 1) = some q →
            q.length < 2) →
         findMatchPartner mmC3 "alice" = none)
      ∧ (∀ c, findMatchInPriority mmC3 "alice" metaA.priority metaA = some c →
          findMatchPartner mmC3 "alice" = some c)
      ∧ (findMatchInPriority mmC3 "alice" metaA.priority metaA = none →
          metaA.priority > 0 →
          ∀ c, findMatchInPriority mmC3 "alice" (metaA.priority - 1) metaA
              = some c →
            findMatchPartner mmC3 "alice" = some c)
      ∧ (findMatchInPriority mmC3 "alice" metaA.priority metaA = none →
          (metaA.priority > 0 →
            findMatchInPriority mmC3 "alice" (metaA.priority - 1) metaA
              = none) →
          metaA.priority < 5 →
          ∀ c, findMatchInPriority mmC3 "alice" (metaA.priority + 1) metaA
              = some c →
            findMatchPartner mmC3 "alice" = some c) :=
  findMatch_search_order_and_min mmC3 "alice" metaA rfl

/-! ## Double enqueue (claim C4) -/

/-- Membership of a user in a priority bucket of the waiting queue. -/
def inBucket (mm : MMState) (p : Int) (u : String) : Prop :=
  ∃ q, mlookup mm.waitingQueue p = some q ∧ u ∈ q

theorem mem_sadd_self (s : List String) (x : String) : x ∈ sadd s x := by
  unfold sadd
  split
  · assumption
  · simp

theorem sadd_of_mem {s : List String} {x : String} (h : x ∈ s) :
    sadd s x = s := by
  unfold sadd
  rw [if_pos h]

theorem sadd_of_not_mem {s : List String} {x : String} (h : x ∉ s) :
    sadd s x = s ++ [x] := by
  unfold sadd
  rw [if_neg h]

theorem addToQueue_ok (mm : MMState) (rp : RepMap) (now : Int) (u : String)
    (r : Rep) (h : mlookup rp u = some r) (hx : toxicRep r = false) :
    addToQueue mm rp now u
      = ({ mm with
            waitingQueue :=
              (mset mm.waitingQueue (priorityOf r)
                (sadd ((mlookup mm.waitingQueue (priorityOf r)).getD []) u))
            userMetadata :=
              (mset mm.userMetadata u
                { priority := priorityOf r, joinedAt := now
                  activityLevel := calculateActivityLevel r
                  responseSpeed := r.avgResponseTime }) },
          rp,
          { success := true, reason := none
            priority := some (priorityOf r) }) := by
  unfold addToQueue getReputation
  rw [h]
  simp [hx]

def c4add1 : MMState × RepMap × AddResult := addToQueue mmEmpty [] 0 "u"

def c4rp2 : RepMap := recordReport c4add1.2.1 1 "u"

def c4add2 : MMState × RepMap × AddResult := addToQueue c4add1.1 c4rp2 2 "u"

/-- Counterexample to C4 as stated: user "u" enqueues at score 100
(priority 5), is reported (score 85, priority 4), and enqueues again with no
intervening dequeue; both enqueues succeed, yet afterwards "u" sits in TWO
priority buckets (5 and 4), not exactly one — `addToQueue` performs no
dequeue of the stale entry. -/
theorem addToQueue_double_counterexample :
    c4add1.2.2.success = true ∧ c4add2.2.2.success = true
      ∧ c4add2.1.waitingQueue = [(5, ["u"]), (4, ["u"])]
      ∧ (c4add2.1.waitingQueue.countP fun pq => decide ("u" ∈ pq.2)) = 2 := by
  refine ⟨rfl, rfl, rfl, rfl⟩

/-- C4 (amended): a non-toxic user enqueued twice with no intervening dequeue
or match has both calls succeed and the metadata refreshed to the second call
(`joinedAt = t2`, new priority); when the reputation-derived priority is
unchanged the user is afterwards in exactly one bucket (the Set add is
idempotent), but — contrary to the original claim — when the priority changed
between the calls `addToQueue` performs no dequeue, so the user is present in
BOTH the old and the new priority bucket. -/
theorem addToQueue_twice (mm : MMState) (rp1 rp2 : RepMap) (t1 t2 : Int)
    (u : String) (r1 r2 : Rep)
    (h1 : mlookup rp1 u = some r1) (h2 : mlookup rp2 u = some r2)
    (hx1 : toxicRep r1 = false) (hx2 : toxicRep r2 = false)
    (h0 : ∀ p q, mlookup mm.waitingQueue p = some q → u ∉ q) :
    (addToQueue mm rp1 t1 u).2.2.success = true
      ∧ (addToQueue (addToQueue mm rp1 t1 u).1 rp2 t2 u).2.2.success = true
      ∧ (priorityOf r1 = priorityOf r2 →
          ∀ p, inBucket (addToQueue (addToQueue mm rp1 t1 u).1 rp2 t2 u).1 p u
            ↔ p = priorityOf r2)
      ∧ (priorityOf r1 ≠ priorityOf r2 →
          ∀ p, inBucket (addToQueue (addToQueue mm rp1 t1 u).1 rp2 t2 u).1 p u
            ↔ (p = priorityOf r1 ∨ p = priorityOf r2))
      ∧ mlookup
          (addToQueue (addToQueue mm rp1 t1 u).1 rp2 t2 u).1.userMetadata u
          = some { priority := priorityOf r2, joinedAt := t2
                   activityLevel := calculateActivityLevel r2
                   responseSpeed := r2.avgResponseTime } := by
  have e1 := addToQueue_ok mm rp1 t1 u r1 h1 hx1
  have e2 := addToQueue_ok (addToQueue mm rp1 t1 u).1 rp2 t2 u r2 h2 hx2
  have hW1 : (addToQueue mm rp1 t1 u).1.waitingQueue
      = mset mm.waitingQueue (priorityOf r1)
          (sadd ((mlookup mm.waitingQueue (priorityOf r1)).getD []) u) := by
    rw [e1]
  have hW2 : (addToQueue (addToQueue mm rp1 t1 u).1 rp2 t2 u).1.waitingQueue
      = mset (addToQueue mm rp1 t1 u).1.waitingQueue (priorityOf r2)
          (sadd (((mlookup (addToQueue mm rp1 t1 u).1.waitingQueue
              (priorityOf r2))).getD []) u) := by
    rw [e2]
  have hM2 : (addToQueue (addToQueue mm rp1 t1 u).1 rp2 t2 u).1.userMetadata
      = mset (addToQueue mm rp1 t1 u).1.userMetadata u
          { priority := priorityOf r2, joinedAt := t2
            activityLevel := calculateActivityLevel r2
            responseSpeed := r2.avgResponseTime } := by
    rw [e2]
  refine ⟨by rw [e1], by rw [e2], ?_, ?_, ?_⟩
  · -- same priority
    intro hpp p
    have hq2 : mlookup (addToQueue mm rp1 t1 u).1.waitingQueue (priorityOf r2)
        = some (sadd ((mlookup mm.waitingQueue (priorityOf r1)).getD []) u) := by
      rw [hW1, ← hpp, mlookup_mset_self]
    constructor
    · rintro ⟨q, hq, hu⟩
      by_contra hne
      have hne1 : p ≠ priorityOf r1 := by rw [hpp]; exact hne
      rw [hW2, mlookup_mset_ne _ _ _ _ hne, hW1,
        mlookup_mset_ne _ _ _ _ hne1] at hq
      exact h0 p q hq hu
    · intro hp
      subst hp
      refine ⟨sadd ((mlookup (addToQueue mm rp1 t1 u).1.waitingQueue
          (priorityOf r2)).getD []) u, ?_, mem_sadd_self _ _⟩
      rw [hW2, mlookup_mset_self]
  · -- changed priority
    intro hpp p
    have hq1ne : mlookup (addToQueue mm rp1 t1 u).1.waitingQueue (priorityOf r2)
        = mlookup mm.waitingQueue (priorityOf r2) := by
      rw [hW1, mlookup_mset_ne _ _ _ _ (fun h => hpp h.symm)]
    constructor
    · rintro ⟨q, hq, hu⟩
      by_cases hp2 : p = priorityOf r2
      · right; exact hp2
      · by_cases hp1 : p = priorityOf r1
        · left; exact hp1
        · exfalso
          rw [hW2, mlookup_mset_ne _ _ _ _ hp2, hW1,
            mlookup_mset_ne _ _ _ _ hp1] at hq
          exact h0 p q hq hu
    · intro hp
      rcases hp with hp | hp
      · subst hp
        refine ⟨sadd ((mlookup mm.waitingQueue (priorityOf r1)).getD []) u,
          ?_, mem_sadd_self _ _⟩
        rw [hW2, mlookup_mset_ne _ _ _ _ hpp, hW1, mlookup_mset_self]
      · subst hp
        refine ⟨sadd ((mlookup (addToQueue mm rp1 t1 u).1.waitingQueue
            (priorityOf r2)).getD []) u, ?_, mem_sadd_self _ _⟩
        rw [hW2, mlookup_mset_self]
  · rw [hM2, mlookup_mset_self]

def c4rp1w : RepMap := [("u", freshRep 0)]

def c4r2w : Rep :=
  { score := 85, messageCount := 0, avgResponseTime := 0, skipCount := 0
    reportCount := 1, spamScore := 0, lastActivity := 1, createdAt := 0 }

/-- Witness for the amended C4 at the concrete counterexample data (priority
drops from 5 to 4 between the enqueues). -/
theorem addToQueue_twice_witness :
    (addToQueue mmEmpty c4rp1w 0 "u").2.2.success = true
      ∧ (addToQueue (addToQueue mmEmpty c4rp1w 0 "u").1
          (recordReport c4rp1w 1 "u") 2 "u").2.2.success = true
      ∧ (priorityOf (freshRep 0) = priorityOf c4r2w →
          ∀ p, inBucket (addToQueue (addToQueue mmEmpty c4rp1w 0 "u").1
              (recordReport c4rp1w 1 "u") 2 "u").1 p "u"
            ↔ p = priorityOf c4r2w)
      ∧ (priorityOf (freshRep 0) ≠ priorityOf c4r2w →
          ∀ p, inBucket (addToQueue (addToQueue mmEmpty c4rp1w 0 "u").1
              (recordReport c4rp1w 1 "u") 2 "u").1 p "u"
            ↔ (p = priorityOf (freshRep 0) ∨ p = priorityOf c4r2w))
      ∧ mlookup (addToQueue (addToQueue mmEmpty c4rp1w 0 "u").1
            (recordReport c4rp1w 1 "u") 2 "u").1.userMetadata "u"
          = some { priority := priorityOf c4r2w, joinedAt := 2
                   activityLevel := calculateActivityLevel c4r2w
                   responseSpeed := c4r2w.avgResponseTime } :=
  addToQueue_twice mmEmpty c4rp1w (recordReport c4rp1w 1 "u") 0 2 "u"
    (freshRep 0) c4r2w rfl rfl rfl rfl
    (by
      intro p q hq
      simp [mmEmpty, mlookup] at hq)

/-! ## Rate limiting (`checkRateLimit` and the `RATE_LIMIT` constants) -/

structure Limits where
  lastMessage : Int
  messageCount : Int
  lastTyping : Int
  lastReport : Int
  windowStart : Int
deriving DecidableEq, Repr

abbrev RLMap := List (String × Limits)

/-- The entry installed on a user's first evaluated call. -/
def freshLimits (now : Int) : Limits :=
  { lastMessage := 0, messageCount := 0, lastTyping := 0, lastReport := 0
    windowStart := now }

def MESSAGE_INTERVAL : Int := 500
def MESSAGE_BURST : Int := 5
def TYPING_INTERVAL : Int := 1000
def REPORT_INTERVAL : Int := 10000

/-- `checkRateLimit(userId, type)`.  The in-place mutations of the JS
`limits` object become an updated map; note that the denial paths return
BEFORE any counter write. -/
def checkRateLimit (rl : RLMap) (now : Int) (u : String) (ty : String) :
    Bool × RLMap :=
  let limits := (mlookup rl u).getD (freshLimits now)
  let rl0 := if (mlookup rl u).isSome then rl else mset rl u (freshLimits now)
  if ty = "message" then
    let l1 :=
      if now - limits.windowStart > 10000 then
        { limits with messageCount := 0, windowStart := now }
      else limits
    if l1.messageCount ≥ MESSAGE_BURST ∧ now - l1.lastMessage < MESSAGE_INTERVAL
    then (false, mset rl0 u l1)
    else
      (true, mset rl0 u
        { l1 with lastMessage := now, messageCount := l1.messageCount + 1 })
  else if ty = "typing" then
    if now - limits.lastTyping < TYPING_INTERVAL then (false, rl0)
    else (true, mset rl0 u { limits with lastTyping := now })
  else if ty = "report" then
    if now - limits.lastReport < REPORT_INTERVAL then (false, rl0)
    else (true, mset rl0 u { limits with lastReport := now })
  else (true, rl0)

theorem mset_self_of_mlookup {κ α : Type} [DecidableEq κ] {l : List (κ × α)}
    {k : κ} {v : α} (h : mlookup l k = some v) : mset l k v = l := by
  induction l with
  | nil => simp [mlookup] at h
  | cons hd tl ih =>
      obtain ⟨k', v'⟩ := hd
      simp only [mlookup] at h
      by_cases hk : k' = k
      · rw [if_pos hk] at h
        injection h with hv
        subst hk
        subst hv
        simp [mset]
      · rw [if_neg hk] at h
        simp [mset, hk, ih h]

theorem mset_mset {κ α : Type} [DecidableEq κ] (l : List (κ × α)) (k : κ)
    (v w : α) : mset (mset l k v) k w = mset l k w := by
  induction l with
  | nil => simp [mset]
  | cons hd tl ih =>
      obtain ⟨k', v'⟩ := hd
      by_cases hk : k' = k
      · simp [mset, hk]
      · simp [mset, hk, ih]

theorem checkMsg_fresh (rl : RLMap) (u : String) (now : Int)
    (h : mlookup rl u = none) :
    checkRateLimit rl now u "message"
      = (true, mset rl u ⟨now, 1, 0, 0, now⟩) := by
  simp [checkRateLimit, h, freshLimits, MESSAGE_BURST, MESSAGE_INTERVAL,
    mset_mset]

theorem checkMsg_allowed (rl : RLMap) (u : String) (now : Int)
    (lm mc lt lr ws : Int) (h : mlookup rl u = some ⟨lm, mc, lt, lr, ws⟩)
    (hwin : ¬ now - ws > 10000) (hcount : mc < 5) :
    checkRateLimit rl now u "message"
      = (true, mset rl u ⟨now, mc + 1, lt, lr, ws⟩) := by
  have hc5 : ¬ mc ≥ 5 := by omega
  simp [checkRateLimit, h, hwin, hc5, MESSAGE_BURST, MESSAGE_INTERVAL]

theorem checkMsg_burst (rl : RLMap) (u : String) (now : Int)
    (lm mc lt lr ws : Int) (h : mlookup rl u = some ⟨lm, mc, lt, lr, ws⟩)
    (hwin : ¬ now - ws > 10000) (hcount : mc ≥ 5) :
    checkRateLimit rl now u "message"
      = (if now - lm < 500 then (false, rl)
         else (true, mset rl u ⟨now, mc + 1, lt, lr, ws⟩)) := by
  by_cases hlt : now - lm < 500
  · simp [checkRateLimit, h, hwin, hcount, hlt, MESSAGE_BURST,
      MESSAGE_INTERVAL, mset_self_of_mlookup h]
  · simp [checkRateLimit, h, hwin, hcount, hlt, MESSAGE_BURST,
      MESSAGE_INTERVAL]

theorem checkMsg_reset (rl : RLMap) (u : String) (now : Int)
    (lm mc lt lr ws : Int) (h : mlookup rl u = some ⟨lm, mc, lt, lr, ws⟩)
    (hw : now - ws > 10000) :
    checkRateLimit rl now u "message"
      = (true, mset rl u ⟨now, 1, lt, lr, now⟩) := by
  simp [checkRateLimit, h, hw, MESSAGE_BURST, MESSAGE_INTERVAL]

theorem checkTyping_known (rl : RLMap) (u : String) (now : Int)
    (lm mc lt lr ws : Int) (h : mlookup rl u = some ⟨lm, mc, lt, lr, ws⟩) :
    checkRateLimit rl now u "typing"
      = (if now - lt < 1000 then (false, rl)
         else (true, mset rl u ⟨lm, mc, now, lr, ws⟩)) := by
  by_cases hlt : now - lt < 1000 <;>
    simp [checkRateLimit, h, hlt, TYPING_INTERVAL]

theorem checkReport_known (rl : RLMap) (u : String) (now : Int)
    (lm mc lt lr ws : Int) (h : mlookup rl u = some ⟨lm, mc, lt, lr, ws⟩) :
    checkRateLimit rl now u "report"
      = (if now - lr < 10000 then (false, rl)
         else (true, mset rl u ⟨lm, mc, lt, now, ws⟩)) := by
  by_cases hlt : now - lr < 10000 <;>
    simp [checkRateLimit, h, hlt, REPORT_INTERVAL]

theorem checkOther_known (rl : RLMap) (u : String) (now : Int) (ty : String)
    (limits : Limits) (h : mlookup rl u = some limits)
    (hm : ty ≠ "message") (ht : ty ≠ "typing") (hr : ty ≠ "report") :
    checkRateLimit rl now u ty = (true, rl) := by
  simp [checkRateLimit, h, hm, ht, hr]

/-- Runs a sequence of message-type rate-limit evaluations for one user,
collecting the verdicts. -/
def runMsgChecks (rl : RLMap) (u : String) : List Int → List Bool
  | [] => []
  | t :: ts =>
      (checkRateLimit rl t u "message").1
        :: runMsgChecks (checkRateLimit rl t u "message").2 u ts

/-- Counterexample to C7 as stated: six messages at 0,0,0,0,0,500 ms all lie
within one second and start from a fresh window, yet ALL six are allowed —
the 6th passes because it arrives exactly 500 ms after the 5th, so the
spacing gate `now - lastMessage < 500` does not fire. -/
theorem burst_sixth_allowed_counterexample :
    runMsgChecks [] "u" [0, 0, 0, 0, 0, 500]
      = [true, true, true, true, true, true] := by
  rfl

theorem burst_tail (u : String) (s1 : RLMap) (t1 t2 t3 t4 t5 t6 lt lr : Int)
    (hl1 : mlookup s1 u = some ⟨t1, 1, lt, lr, t1⟩)
    (h32 : t2 ≤ t3) (h43 : t3 ≤ t4) (h54 : t4 ≤ t5)
    (h65 : t5 ≤ t6) (h2lo : t1 ≤ t2) (hspan : t6 - t1 ≤ 1000) :
    runMsgChecks s1 u [t2, t3, t4, t5, t6]
      = [true, true, true, true, decide (500 ≤ t6 - t5)] := by
  have e2 := checkMsg_allowed s1 u t2 t1 1 lt lr t1 hl1 (by omega) (by omega)
  norm_num at e2
  have l2 : mlookup (mset s1 u ⟨t2, 2, lt, lr, t1⟩) u
      = some ⟨t2, 2, lt, lr, t1⟩ := mlookup_mset_self _ _ _
  have e3 := checkMsg_allowed _ u t3 t2 2 lt lr t1 l2 (by omega) (by omega)
  norm_num at e3
  have l3 : mlookup (mset (mset s1 u ⟨t2, 2, lt, lr, t1⟩) u
        ⟨t3, 3, lt, lr, t1⟩) u
      = some ⟨t3, 3, lt, lr, t1⟩ := mlookup_mset_self _ _ _
  have e4 := checkMsg_allowed _ u t4 t3 3 lt lr t1 l3 (by omega) (by omega)
  norm_num at e4
  have l4 : mlookup (mset (mset (mset s1 u ⟨t2, 2, lt, lr, t1⟩) u
        ⟨t3, 3, lt, lr, t1⟩) u ⟨t4, 4, lt, lr, t1⟩) u
      = some ⟨t4, 4, lt, lr, t1⟩ := mlookup_mset_self _ _ _
  have e5 := checkMsg_allowed _ u t5 t4 4 lt lr t1 l4 (by omega) (by omega)
  norm_num at e5
  have l5 : mlookup (mset (mset (mset (mset s1 u ⟨t2, 2, lt, lr, t1⟩) u
        ⟨t3, 3, lt, lr, t1⟩) u ⟨t4, 4, lt, lr, t1⟩) u ⟨t5, 5, lt, lr, t1⟩) u
      = some ⟨t5, 5, lt, lr, t1⟩ := mlookup_mset_self _ _ _
  have e6 := checkMsg_burst _ u t6 t5 5 lt lr t1 l5 (by omega) (by omega)
  simp only [runMsgChecks, e2, e3, e4, e5, e6]
  by_cases hlt : t6 - t5 < 500
  · rw [if_pos hlt, decide_eq_false (by omega : ¬ (500 ≤ t6 - t5))]
  · rw [if_neg hlt, decide_eq_true (by omega : (500 : Int) ≤ t6 - t5)]

/-- C7 (amended): a burst of six message evaluations within one second,
starting EITHER from a fresh window (no rateLimits entry for the user) OR
from an expired window (an existing entry whose `windowStart` lies more than
10 s before the first call, which the first call resets), has the first five
allowed, and the sixth allowed if and only if it arrives at least 500 ms
after the fifth (the burst budget alone does not deny it; the spacing gate
decides). -/
theorem burst_of_six (u : String) (rl : RLMap) (t1 t2 t3 t4 t5 t6 : Int)
    (hstart : mlookup rl u = none
      ∨ ∃ l, mlookup rl u = some l ∧ t1 - l.windowStart > 10000)
    (h21 : t1 ≤ t2) (h32 : t2 ≤ t3) (h43 : t3 ≤ t4) (h54 : t4 ≤ t5)
    (h65 : t5 ≤ t6) (hspan : t6 - t1 ≤ 1000) :
    runMsgChecks rl u [t1, t2, t3, t4, t5, t6]
      = [true, true, true, true, true, decide (500 ≤ t6 - t5)] := by
  rcases hstart with hnone | ⟨l, hl, hw⟩
  · have e1 := checkMsg_fresh rl u t1 hnone
    have l1 : mlookup (mset rl u ⟨t1, 1, 0, 0, t1⟩) u
        = some ⟨t1, 1, 0, 0, t1⟩ := mlookup_mset_self _ _ _
    have hstep : runMsgChecks rl u [t1, t2, t3, t4, t5, t6]
        = true :: runMsgChecks (mset rl u ⟨t1, 1, 0, 0, t1⟩) u
            [t2, t3, t4, t5, t6] := by
      show (checkRateLimit rl t1 u "message").1
          :: runMsgChecks (checkRateLimit rl t1 u "message").2 u
              [t2, t3, t4, t5, t6]
        = true :: runMsgChecks (mset rl u ⟨t1, 1, 0, 0, t1⟩) u
            [t2, t3, t4, t5, t6]
      rw [e1]
    rw [hstep,
      burst_tail u _ t1 t2 t3 t4 t5 t6 0 0 l1 h32 h43 h54 h65 h21 hspan]
  · obtain ⟨lm, mc, lt, lr, ws⟩ := l
    simp only at hw
    have e1 := checkMsg_reset rl u t1 lm mc lt lr ws hl hw
    have l1 : mlookup (mset rl u ⟨t1, 1, lt, lr, t1⟩) u
        = some ⟨t1, 1, lt, lr, t1⟩ := mlookup_mset_self _ _ _
    have hstep : runMsgChecks rl u [t1, t2, t3, t4, t5, t6]
        = true :: runMsgChecks (mset rl u ⟨t1, 1, lt, lr, t1⟩) u
            [t2, t3, t4, t5, t6] := by
      show (checkRateLimit rl t1 u "message").1
          :: runMsgChecks (checkRateLimit rl t1 u "message").2 u
              [t2, t3, t4, t5, t6]
        = true :: runMsgChecks (mset rl u ⟨t1, 1, lt, lr, t1⟩) u
            [t2, t3, t4, t5, t6]
      rw [e1]
    rw [hstep,
      burst_tail u _ t1 t2 t3 t4 t5 t6 lt lr l1 h32 h43 h54 h65 h21 hspan]

def rlC7w : RLMap := [("w", ⟨-20000, 3, 0, 0, -20000⟩)]

/-- Witness for the amended C7, exercising the expired-window start: the user
already has an entry whose window began 20 s before the burst; six messages
at 0,0,0,0,0,100 ms — the sixth comes 100 ms after the fifth, so it is
denied. -/
theorem burst_of_six_witness :
    runMsgChecks rlC7w "w" [0, 0, 0, 0, 0, 100]
      = [true, true, true, true, true, decide (500 ≤ (100 : Int) - 0)] :=
  burst_of_six "w" rlC7w 0 0 0 0 0 100
    (Or.inr ⟨⟨-20000, 3, 0, 0, -20000⟩, rfl, by decide⟩)
    (by omega) (by omega) (by omega) (by omega) (by omega) (by omega)

def rlC8 : RLMap := [("u", ⟨1000, 5, 0, 0, 500⟩)]

/-- Counterexample to C8 as stated: a denied message evaluation (burst
exhausted, 200 ms after the previous message) leaves the user's counters
completely untouched — `lastMessage` stays 1000 instead of advancing to the
call time 1200, and `messageCount` stays 5. -/
theorem checkRateLimit_denied_counterexample :
    checkRateLimit rlC8 1200 "u" "message" = (false, rlC8)
      ∧ (mlookup (checkRateLimit rlC8 1200 "u" "message").2 "u").map
          Limits.lastMessage = some 1000
      ∧ (mlookup (checkRateLimit rlC8 1200 "u" "message").2 "u").map
          Limits.lastMessage ≠ some 1200 := by
  refine ⟨rfl, rfl, by decide⟩

/-- C8 (amended): an evaluated `checkRateLimit` call touches at most the
calling user's own entry (frame); an ALLOWED call records the event — for
"message" it sets `lastMessage := now` and bumps the window counter (resetting
the window first when it expired), for "typing"/"report" it sets the matching
last-event timestamp — but, contrary to the original claim, a DENIED call of
a known user performs no update at all: the stored counters are exactly as
before, so the denied retry neither resets nor advances the window. -/
theorem checkRateLimit_counters (rl : RLMap) (now : Int) (u : String)
    (ty : String) :
    (∀ v, v ≠ u → mlookup (checkRateLimit rl now u ty).2 v = mlookup rl v)
      ∧ ((mlookup rl u).isSome → (checkRateLimit rl now u ty).1 = false →
          (checkRateLimit rl now u ty).2 = rl)
      ∧ (∀ lm mc lt lr ws, mlookup rl u = some ⟨lm, mc, lt, lr, ws⟩ →
          (ty = "message" → (checkRateLimit rl now u ty).1 = true →
              (checkRateLimit rl now u ty).2
                = mset rl u (if now - ws > 10000 then ⟨now, 1, lt, lr, now⟩
                             else ⟨now, mc + 1, lt, lr, ws⟩))
            ∧ (ty = "typing" → (checkRateLimit rl now u ty).1 = true →
                (checkRateLimit rl now u ty).2 = mset rl u ⟨lm, mc, now, lr, ws⟩)
            ∧ (ty = "report" → (checkRateLimit rl now u ty).1 = true →
                (checkRateLimit rl now u ty).2
                  = mset rl u ⟨lm, mc, lt, now, ws⟩)) := by
  refine ⟨?_, ?_, ?_⟩
  · intro v hv
    unfold checkRateLimit
    cases hu : mlookup rl u with
    | none =>
        simp only [hu, Option.getD_none, Option.isSome_none,
          Bool.false_eq_true, if_false]
        repeat' split
        all_goals simp [mlookup_mset_ne _ _ _ _ hv]
    | some limits =>
        simp only [hu, Option.getD_some, Option.isSome_some, if_true]
        repeat' split
        all_goals simp [mlookup_mset_ne _ _ _ _ hv]
  · intro hsome hfalse
    rw [Option.isSome_iff_exists] at hsome
    obtain ⟨limits, hu⟩ := hsome
    obtain ⟨lm, mc, lt, lr, ws⟩ := limits
    by_cases hm : ty = "message"
    · subst hm
      by_cases hw : now - ws > 10000
      · rw [checkMsg_reset rl u now lm mc lt lr ws hu hw] at hfalse
        simp at hfalse
      · by_cases hc : mc ≥ 5
        · rw [checkMsg_burst rl u now lm mc lt lr ws hu hw hc] at hfalse ⊢
          split at hfalse
          · rw [if_pos (by assumption)]
          · simp at hfalse
        · rw [checkMsg_allowed rl u now lm mc lt lr ws hu hw (by omega)]
            at hfalse
          simp at hfalse
    · by_cases ht : ty = "typing"
      · subst ht
        rw [checkTyping_known rl u now lm mc lt lr ws hu] at hfalse ⊢
        split at hfalse
        · rw [if_pos (by assumption)]
        · simp at hfalse
      · by_cases hr : ty = "report"
        · subst hr
          rw [checkReport_known rl u now lm mc lt lr ws hu] at hfalse ⊢
          split at hfalse
          · rw [if_pos (by assumption)]
          · simp at hfalse
        · rw [checkOther_known rl u now ty _ hu hm ht hr] at hfalse
          simp at hfalse
  · intro lm mc lt lr ws hu
    refine ⟨?_, ?_, ?_⟩
    · intro hm htrue
      subst hm
      by_cases hw : now - ws > 10000
      · rw [checkMsg_reset rl u now lm mc lt lr ws hu hw, if_pos hw]
      · rw [if_neg hw]
        by_cases hc : mc ≥ 5
        · rw [checkMsg_burst rl u now lm mc lt lr ws hu hw hc] at htrue ⊢
          split at htrue
          · simp at htrue
          · rw [if_neg (by assumption)]
        · rw [checkMsg_allowed rl u now lm mc lt lr ws hu hw (by omega)]
    · intro ht htrue
      subst ht
      rw [checkTyping_known rl u now lm mc lt lr ws hu] at htrue ⊢
      split at htrue
      · simp at htrue
      · rw [if_neg (by assumption)]
    · intro hr htrue
      subst hr
      rw [checkReport_known rl u now lm mc lt lr ws hu] at htrue ⊢
      split at htrue
      · simp at htrue
      · rw [if_neg (by assumption)]

/-- Witness for the amended C8: concrete consequences at the state `rlC8` —
the frame property for another user, the unchanged state on a denied call,
and the counter update on an allowed typing call. -/
theorem checkRateLimit_counters_witness :
    mlookup (checkRateLimit rlC8 1200 "u" "message").2 "v" = mlookup rlC8 "v"
      ∧ (checkRateLimit rlC8 1200 "u" "message").2 = rlC8
      ∧ (checkRateLimit rlC8 1200 "u" "typing").2
          = mset rlC8 "u" ⟨1000, 5, 1200, 0, 500⟩ :=
  ⟨(checkRateLimit_counters rlC8 1200 "u" "message").1 "v" (by decide),
   (checkRateLimit_counters rlC8 1200 "u" "message").2.1 (by decide) rfl,
   ((checkRateLimit_counters rlC8 1200 "u" "typing").2.2 1000 5 0 0 500
      rfl).2.1 rfl rfl⟩

/-! ## Private chat rooms: skip, disconnect, and the cleanup sweep -/

/-- A private/random chat room (`privateChatRooms` map values).  The JS field
`type` is called `roomType` here (`type` is reserved in Lean). -/
structure Room where
  id : String
  participants : List String
  createdAt : Int
  roomType : String
deriving DecidableEq, Repr

abbrev RoomMap := List (String × Room)

/-- JS truthiness of a nullable string (`null`/`undefined`/`""` are falsy). -/
def jsTruthyOpt : Option String → Bool
  | none => false
  | some s => s != ""

structure SkipOutcome where
  ackSuccess : Bool
  ackError : Option String
  rooms : RoomMap
  rp : RepMap
  mm : MMState
  emittedPartnerSkipped : Bool
deriving Repr

/-- The `skipMatch` handler: validation, `recordSkip`, notify partner,
`endMatch`, remove the participant, and delete the room AT ONCE when it
became empty. -/
def skipMatchHandler (rooms : RoomMap) (rp : RepMap) (mm : MMState)
    (currentUserId chatId : Option String) (now : Int) : SkipOutcome :=
  if !(jsTruthyOpt currentUserId) || !(jsTruthyOpt chatId) then
    { ackSuccess := false, ackError := some "Invalid request"
      rooms := rooms, rp := rp, mm := mm, emittedPartnerSkipped := false }
  else
    let u := currentUserId.getD ""
    let cid := chatId.getD ""
    match mlookup rooms cid with
    | none =>
        { ackSuccess := false, ackError := some "Room not found"
          rooms := rooms, rp := rp, mm := mm, emittedPartnerSkipped := false }
    | some room =>
        let rp2 := recordSkip rp now u
        let mm2 := endMatch mm cid
        let parts := sdel room.participants u
        let rooms2 :=
          if parts.length = 0 then mdel rooms cid
          else mset rooms cid { room with participants := parts }
        { ackSuccess := true, ackError := none
          rooms := rooms2, rp := rp2, mm := mm2
          emittedPartnerSkipped := true }

/-- One room's treatment inside the `disconnect` handler loop: a room
containing the user loses that participant; if thereby emptied, the room is
deleted (`none`). -/
def disconnectRoomStep (u : String) (p : String × Room) :
    Option (String × Room) :=
  if u ∈ p.2.participants then
    (if (sdel p.2.participants u).length = 0 then none
     else some (p.1, { p.2 with participants := sdel p.2.participants u }))
  else some p

/-- The private-room part of the `disconnect` handler.  A JS `Map` iteration
with per-entry update/delete (unique keys) is translated entry-wise. -/
def disconnectPrivateRooms (rooms : RoomMap) (u : String) : RoomMap :=
  rooms.filterMap (disconnectRoomStep u)

/-- `cleanupEmptyRooms()`: the periodic sweep deletes every private room that
is empty AND older than 60 s — measured from `createdAt`, not from the moment
it became empty. -/
def cleanupEmptyRooms (rooms : RoomMap) (now : Int) : RoomMap :=
  rooms.filter fun p =>
    !(decide (p.2.participants.length = 0 ∧ now - p.2.createdAt > 60000))

theorem mlookup_eq_none_of_not_mem {κ α : Type} [DecidableEq κ]
    (l : List (κ × α)) (k : κ) (h : k ∉ l.map Prod.fst) :
    mlookup l k = none := by
  induction l with
  | nil => rfl
  | cons hd tl ih =>
      obtain ⟨k', v'⟩ := hd
      simp only [List.map_cons, List.mem_cons] at h
      push_neg at h
      simp only [mlookup]
      rw [if_neg (fun hh => h.1 hh.symm), ih h.2]

theorem mlookup_mdel_self_nodup {κ α : Type} [DecidableEq κ]
    (l : List (κ × α)) (k : κ) (h : (l.map Prod.fst).Nodup) :
    mlookup (mdel l k) k = none := by
  induction l with
  | nil => rfl
  | cons hd tl ih =>
      obtain ⟨k', v'⟩ := hd
      simp only [List.map_cons, List.nodup_cons] at h
      simp only [mdel]
      by_cases hk : k' = k
      · rw [if_pos hk]
        subst hk
        exact mlookup_eq_none_of_not_mem tl k' h.1
      · rw [if_neg hk]
        simp only [mlookup]
        rw [if_neg hk]
        exact ih h.2

theorem mlookup_filterMap_none {α : Type} [DecidableEq α]
    {β : Type} (f : (α × β) → Option (α × β))
    (hf : ∀ p q, f p = some q → q.1 = p.1) (l : List (α × β)) (k : α)
    (hk : k ∉ l.map Prod.fst) : mlookup (l.filterMap f) k = none := by
  induction l with
  | nil => rfl
  | cons hd tl ih =>
      simp only [List.map_cons, List.mem_cons] at hk
      push_neg at hk
      rw [List.filterMap_cons]
      cases hfh : f hd with
      | none => exact ih hk.2
      | some q =>
          have hq1 : q.1 = hd.1 := hf hd q hfh
          simp only [mlookup]
          obtain ⟨qk, qv⟩ := q
          simp only at hq1
          rw [if_neg (by rw [hq1]; exact fun hh => hk.1 hh.symm)]
          exact ih hk.2

theorem disconnectRoomStep_key (u : String) (p q : String × Room)
    (hpq : disconnectRoomStep u p = some q) : q.1 = p.1 := by
  unfold disconnectRoomStep at hpq
  split at hpq
  · split at hpq
    · cases hpq
    · cases hpq
      rfl
  · cases hpq
    rfl

theorem disconnectPrivateRooms_deletes (rooms : RoomMap) (u cid : String)
    (r : Room) (hnodup : (rooms.map Prod.fst).Nodup)
    (hmem : mlookup rooms cid = some r) (hpart : r.participants = [u]) :
    mlookup (disconnectPrivateRooms rooms u) cid = none := by
  induction rooms with
  | nil => simp [mlookup] at hmem
  | cons hd tl ih =>
      obtain ⟨k, rr⟩ := hd
      simp only [List.map_cons, List.nodup_cons] at hnodup
      simp only [mlookup] at hmem
      unfold disconnectPrivateRooms
      rw [List.filterMap_cons]
      by_cases hk : k = cid
      · subst hk
        rw [if_pos rfl] at hmem
        injection hmem with hr
        subst hr
        have hstep : disconnectRoomStep u (k, rr) = none := by
          unfold disconnectRoomStep
          simp [hpart, sdel]
        rw [hstep]
        exact mlookup_filterMap_none _ (disconnectRoomStep_key u) tl k
          hnodup.1
      · rw [if_neg hk] at hmem
        cases hfh : disconnectRoomStep u (k, rr) with
        | none =>
            exact ih hnodup.2 hmem
        | some q =>
            have hq1 : q.1 = k := disconnectRoomStep_key u (k, rr) q hfh
            obtain ⟨qk, qv⟩ := q
            simp only at hq1
            show mlookup
              ((qk, qv) :: List.filterMap (disconnectRoomStep u) tl) cid
              = none
            simp only [mlookup]
            rw [if_neg (by rw [hq1]; exact hk)]
            exact ih hnodup.2 hmem

def roomC5 : Room :=
  { id := "m1", participants := ["u"], createdAt := 0, roomType := "random" }

def roomsC5 : RoomMap := [("m1", roomC5)]

/-- Counterexample to C5 as stated: "u" is the last participant of random
room "m1"; skipping acknowledges success and the room is gone from
`privateChatRooms` IN THE SAME STEP — no 60-second grace period is applied.
The disconnect handler deletes it synchronously as well. -/
theorem room_deleted_synchronously_counterexample :
    (skipMatchHandler roomsC5 [] mmEmpty (some "u") (some "m1") 5).ackSuccess
        = true
      ∧ mlookup (skipMatchHandler roomsC5 [] mmEmpty (some "u") (some "m1")
          5).rooms "m1" = none
      ∧ mlookup (disconnectPrivateRooms roomsC5 "u") "m1" = none :=
  ⟨rfl, rfl, rfl⟩

/-- C5 (amended): when the last participant leaves a private/random room via
`skipMatch` or via disconnect, the room IS deleted synchronously in that very
step (no grace period); the periodic `cleanupEmptyRooms` sweep additionally
deletes exactly those rooms that are empty and more than 60 s old — the 60 s
are measured from the room's creation, not from the moment it became empty. -/
theorem room_deletion_timing (rooms : RoomMap) (rp : RepMap) (mm : MMState)
    (u cid : String) (r : Room) (now : Int)
    (hu : u ≠ "") (hcid : cid ≠ "")
    (hnodup : (rooms.map Prod.fst).Nodup)
    (hmem : mlookup rooms cid = some r)
    (hpart : r.participants = [u]) :
    ((skipMatchHandler rooms rp mm (some u) (some cid) now).ackSuccess = true
      ∧ mlookup
          (skipMatchHandler rooms rp mm (some u) (some cid) now).rooms cid
          = none)
      ∧ mlookup (disconnectPrivateRooms rooms u) cid = none
      ∧ (∀ cid2 r2, (cid2, r2) ∈ cleanupEmptyRooms rooms now
          ↔ ((cid2, r2) ∈ rooms
              ∧ ¬(r2.participants.length = 0 ∧ now - r2.createdAt > 60000))) := by
  have hskip : skipMatchHandler rooms rp mm (some u) (some cid) now
      = { ackSuccess := true, ackError := none
          rooms := mdel rooms cid, rp := recordSkip rp now u
          mm := endMatch mm cid, emittedPartnerSkipped := true } := by
    unfold skipMatchHandler
    rw [if_neg (by simp [jsTruthyOpt, hu, hcid])]
    simp only [Option.getD_some]
    rw [hmem]
    simp only [hpart]
    have hsd : sdel [u] u = [] := by simp [sdel]
    rw [hsd]
    simp
  refine ⟨⟨by rw [hskip], ?_⟩, ?_, ?_⟩
  · rw [hskip]
    exact mlookup_mdel_self_nodup rooms cid hnodup
  · exact disconnectPrivateRooms_deletes rooms u cid r hnodup hmem hpart
  · intro cid2 r2
    unfold cleanupEmptyRooms
    rw [List.mem_filter]
    simp
    intro _
    constructor
    · rintro (h | h)
      · intro ha
        exact absurd ha h
      · intro _
        exact h
    · intro h
      by_cases ha : r2.participants = []
      · right
        exact h ha
      · left
        exact ha

/-- Witness for the amended C5 at the concrete one-room state. -/
theorem room_deletion_timing_witness :
    (((skipMatchHandler roomsC5 [] mmEmpty (some "u") (some "m1") 5).ackSuccess
        = true
      ∧ mlookup (skipMatchHandler roomsC5 [] mmEmpty (some "u") (some "m1")
          5).rooms "m1" = none)
      ∧ mlookup (disconnectPrivateRooms roomsC5 "u") "m1" = none
      ∧ (∀ cid2 r2, (cid2, r2) ∈ cleanupEmptyRooms roomsC5 5
          ↔ ((cid2, r2) ∈ roomsC5
              ∧ ¬(r2.participants.length = 0 ∧ 5 - r2.createdAt > 60000)))) :=
  room_deletion_timing roomsC5 [] mmEmpty "u" "m1" roomC5 5
    (by decide) (by decide) (by simp [roomsC5]) rfl rfl

/-! ## Payload validation and the `sendMessage` / `reportUser` handlers -/

/-- JS truthiness of a payload value. -/
def truthy : JsVal → Bool
  | JsVal.vstr s => s != ""
  | JsVal.vnum n => n != 0
  | JsVal.vbool b => b
  | JsVal.vundef => false

/-- JS `typeof`. -/
def typeofStr : JsVal → String
  | JsVal.vstr _ => "string"
  | JsVal.vnum _ => "number"
  | JsVal.vbool _ => "boolean"
  | JsVal.vundef => "undefined"

/-- `data[key]` (`undefined` when the key is absent). -/
def getKey (data : List (String × JsVal)) (k : String) : JsVal :=
  (mlookup data k).getD JsVal.vundef

/-- `validatePayload(data, schema)`: for every schema entry, fail if the type
is the marker 'required' and the value is falsy, or if the value is truthy
and its `typeof` differs from the declared type; missing or falsy values of
keys declared with a concrete type PASS. -/
def validatePayload (data : List (String × JsVal))
    (schema : List (String × String)) : Bool :=
  schema.all fun kt =>
    (!(kt.2 == "required" && !(truthy (getKey data kt.1))))
      && (!(truthy (getKey data kt.1) && typeofStr (getKey data kt.1) != kt.2
            && kt.2 != "required"))

theorem validateEntry_iff (v : JsVal) (ty : String) :
    ((!(ty == "required" && !(truthy v)))
      && (!(truthy v && typeofStr v != ty && ty != "required"))) = true
      ↔ ((ty = "required" → truthy v = true)
          ∧ (truthy v = true → ty ≠ "required" → typeofStr v = ty)) := by
  by_cases h1 : ty = "required" <;> by_cases h2 : truthy v = true <;>
    simp [h1, h2]

/-- The loop of `validatePayload` as a logical specification: validation only
demands truthiness for 'required'-marked keys and a matching `typeof` for
keys whose value is present and truthy. -/
theorem validatePayload_iff (data : List (String × JsVal))
    (schema : List (String × String)) :
    validatePayload data schema = true
      ↔ ∀ kt ∈ schema,
          (kt.2 = "required" → truthy (getKey data kt.1) = true)
            ∧ (truthy (getKey data kt.1) = true → kt.2 ≠ "required" →
                typeofStr (getKey data kt.1) = kt.2) := by
  unfold validatePayload
  rw [List.all_eq_true]
  constructor
  · intro h kt hkt
    exact (validateEntry_iff (getKey data kt.1) kt.2).mp (h kt hkt)
  · intro h kt hkt
    exact (validateEntry_iff (getKey data kt.1) kt.2).mpr (h kt hkt)

/-- JS whitespace for `String.prototype.trim`. -/
def jsWhitespace (c : Char) : Bool :=
  c = ' ' || c = '\t' || c = '\n' || c = '\r' || c = '\x0b' || c = '\x0c'

def trimChars (s : List Char) : List Char :=
  ((s.dropWhile jsWhitespace).reverse.dropWhile jsWhitespace).reverse

/-- Case-insensitive literal prefix match (pattern given in lowercase);
returns the remainder on success. -/
def ciPrefix : List Char → List Char → Option (List Char)
  | [], rest => some rest
  | _ :: _, [] => none
  | p :: ps, c :: cs => if c.toLower = p then ciPrefix ps cs else none

/-- The lazy `.*?<\/script>` part (case-insensitive, `.` excludes newline):
the minimal close position, or failure at end/newline. -/
def findScriptClose : List Char → Option (List Char)
  | [] => none
  | c :: cs =>
      match ciPrefix ("</script>".data) (c :: cs) with
      | some rest => some rest
      | none => if c = '\n' then none else findScriptClose cs

/-- One attempted match of `<script[^>]*>.*?<\/script>` at the current
position; returns the remainder after the match. -/
def matchScript (s : List Char) : Option (List Char) :=
  match ciPrefix ("<script".data) s with
  | none => none
  | some rest1 =>
      match rest1.span (fun x => x ≠ '>') with
      | (_, g :: rest2) => if g = '>' then findScriptClose rest2 else none
      | (_, []) => none

/-- Global replacement of script blocks by "" (fuel = input length bounds the
number of scan steps; each step consumes at least one character). -/
def scriptStripFuel : Nat → List Char → List Char
  | 0, s => s
  | _, [] => []
  | fuel + 1, c :: cs =>
      match matchScript (c :: cs) with
      | some rest => scriptStripFuel fuel rest
      | none => c :: scriptStripFuel fuel cs

def scriptStrip (s : List Char) : List Char := scriptStripFuel s.length s

/-- Global replacement of `<[^>]+>` by "" (same fuel scheme). -/
def tagStripFuel : Nat → List Char → List Char
  | 0, s => s
  | _, [] => []
  | fuel + 1, c :: cs =>
      if c = '<' then
        match cs.span (fun x => x ≠ '>') with
        | (gap, g :: rest) =>
            if g = '>' then
              (if gap.isEmpty then '<' :: tagStripFuel fuel cs
               else tagStripFuel fuel rest)
            else '<' :: tagStripFuel fuel cs
        | (_, []) => '<' :: tagStripFuel fuel cs
      else c :: tagStripFuel fuel cs

def tagStrip (s : List Char) : List Char := tagStripFuel s.length s

/-- `sanitize(text)`: non-strings become "", strings lose script blocks and
tags and are trimmed. -/
def sanitize (v : JsVal) : String :=
  match v with
  | JsVal.vstr s => String.mk (trimChars (tagStrip (scriptStrip s.data)))
  | _ => ""

/-- JS `substring(0, n)` (code units modelled as chars). -/
def jsSubstring (s : String) (n : Nat) : String :=
  String.mk (s.data.take n)

/-- The spam regex `/(.)\1{10,}/`: some non-newline character repeated at
least 11 times consecutively (`.` does not match newline). -/
def hasRun11 : List Char → Bool
  | [] => false
  | c :: cs =>
      if c ≠ '\n' ∧ (cs.takeWhile (fun x => x = c)).length ≥ 10 then true
      else hasRun11 cs

structure User where
  id : String
  username : String
  socketId : String
  joinedAt : Int
  status : String
deriving DecidableEq, Repr

structure SendOutcome where
  ackSuccess : Bool
  ackError : Option String
  rl : RLMap
  rp : RepMap
  sm : SMState
  broadcast : Option (JsVal × Msg)
  messageData : Option Msg
deriving Repr

/-- The `sendMessage` handler: payload validation, auth + rate limit
(short-circuit: the limiter is not evaluated when unauthenticated),
sanitisation and truncation, spam classification (which records the message
in the reputation system BEFORE the spam rejection), buffer append, and
broadcast to the payload's `roomId` — whatever that value is.  The fresh
`msg-` uuid is the `msgId` parameter. -/
def sendMessageHandler (data : List (String × JsVal))
    (currentUserId currentSessionToken : Option String)
    (rl : RLMap) (rp : RepMap) (sm : SMState)
    (users : List (String × User)) (now : Int) (msgId : String) :
    SendOutcome :=
  if !(validatePayload data [("roomId", "string"), ("message", "string")]) then
    { ackSuccess := false, ackError := some "Invalid payload"
      rl := rl, rp := rp, sm := sm, broadcast := none, messageData := none }
  else if !(jsTruthyOpt currentUserId) then
    { ackSuccess := false, ackError := some "Rate limit exceeded"
      rl := rl, rp := rp, sm := sm, broadcast := none, messageData := none }
  else
    let u := currentUserId.getD ""
    let rlRes := checkRateLimit rl now u "message"
    if !rlRes.1 then
      { ackSuccess := false, ackError := some "Rate limit exceeded"
        rl := rlRes.2, rp := rp, sm := sm, broadcast := none
        messageData := none }
    else
      let message := jsSubstring (sanitize (getKey data "message")) 1000
      if message = "" then
        { ackSuccess := false, ackError := some "Empty message"
          rl := rlRes.2, rp := rp, sm := sm, broadcast := none
          messageData := none }
      else
        match mlookup users u with
        | none =>
            { ackSuccess := false, ackError := some "User not found"
              rl := rlRes.2, rp := rp, sm := sm, broadcast := none
              messageData := none }
        | some user =>
            let isSpam := decide (message.length > 500) || hasRun11 message.data
            let rp2 := recordMessage rp now u isSpam
            if isSpam then
              { ackSuccess := false, ackError := some "Spam detected"
                rl := rlRes.2, rp := rp2, sm := sm, broadcast := none
                messageData := none }
            else
              let md : Msg :=
                { id := msgId, roomId := getKey data "roomId", senderId := u
                  senderName := user.username, message := message
                  timestamp := now }
              let sm2 :=
                if jsTruthyOpt currentSessionToken then
                  addMessageToBuffer sm (currentSessionToken.getD "") md
                else sm
              { ackSuccess := true, ackError := none
                rl := rlRes.2, rp := rp2, sm := sm2
                broadcast := some (getKey data "roomId", md)
                messageData := some md }

structure ReportOutcome where
  ackSuccess : Bool
  ackError : Option String
  ackMessage : Option String
  rl : RLMap
  rp : RepMap
  totalReports : Int
  flaggedUsers : List String
deriving Repr

/-- The `reportUser` handler: payload validation, auth + report rate limit,
then `recordReport(targetUserId)` on whatever string was supplied (no
existence check against the `users` map), admin metrics, success ack.
(A validated `targetUserId` that reaches the domain step is a truthy string;
the embedding reads that string.) -/
def reportUserHandler (data : List (String × JsVal))
    (currentUserId : Option String) (rl : RLMap) (rp : RepMap)
    (users : List (String × User)) (totalReports : Int)
    (flaggedUsers : List String) (now : Int) : ReportOutcome :=
  if !(validatePayload data
        [("targetUserId", "string"), ("reason", "string")]) then
    { ackSuccess := false, ackError := some "Invalid payload"
      ackMessage := none, rl := rl, rp := rp
      totalReports := totalReports, flaggedUsers := flaggedUsers }
  else if !(jsTruthyOpt currentUserId) then
    { ackSuccess := false, ackError := some "Rate limit exceeded"
      ackMessage := none, rl := rl, rp := rp
      totalReports := totalReports, flaggedUsers := flaggedUsers }
  else
    let u := currentUserId.getD ""
    let rlRes := checkRateLimit rl now u "report"
    if !rlRes.1 then
      { ackSuccess := false, ackError := some "Rate limit exceeded"
        ackMessage := none, rl := rlRes.2, rp := rp
        totalReports := totalReports, flaggedUsers := flaggedUsers }
    else
      let target :=
        match getKey data "targetUserId" with
        | JsVal.vstr s => s
        | _ => ""
      let rp2 := recordReport rp now target
      { ackSuccess := true, ackError := none
        ackMessage := some "Report submitted. Thank you."
        rl := rlRes.2, rp := rp2, totalReports := totalReports + 1
        flaggedUsers := sadd flaggedUsers target }

def dataC6 : List (String × JsVal) := [("message", JsVal.vstr "hi")]

def userC6 : User :=
  { id := "u1", username := "alice", socketId := "s1", joinedAt := 0
    status := "online" }

def usersC6 : List (String × User) := [("u1", userC6)]

def sessC6 : Session :=
  { token := "tok", socketId := "s1", userId := "u1", username := "alice"
    createdAt := 0, lastActivity := 0, currentRoom := none
    currentMatch := none, messageBuffer := [], reconnectCount := 0 }

def smC6 : SMState :=
  { sessions := [("tok", sessC6)], socketToSession := [("s1", "tok")] }

def sendC6 : SendOutcome :=
  sendMessageHandler dataC6 (some "u1") (some "tok") [] [] smC6 usersC6 7 "m1"

/-- Counterexample to C6 as stated: a `sendMessage` payload WITHOUT the
`roomId` key passes `validatePayload` (the schema marks it 'string', not
'required', and missing keys are only checked when truthy), and the handler
runs to completion: success ack, a broadcast addressed to `undefined`, and
rate-limit / reputation / session-buffer state all mutated — not an error
ack with no partial processing. -/
theorem missing_key_processed_counterexample :
    validatePayload dataC6 [("roomId", "string"), ("message", "string")]
        = true
      ∧ sendC6.ackSuccess = true
      ∧ sendC6.broadcast = some (JsVal.vundef,
          { id := "m1", roomId := JsVal.vundef, senderId := "u1"
            senderName := "alice", message := "hi", timestamp := 7 })
      ∧ (mlookup sendC6.rp "u1").map Rep.messageCount = some 1
      ∧ (mlookup sendC6.rl "u1").map Limits.messageCount = some 1
      ∧ (mlookup sendC6.sm.sessions "tok").map
          (fun s => s.messageBuffer.length) = some 1 := by
  set_option maxRecDepth 8000 in
  exact ⟨rfl, rfl, rfl, rfl, rfl, rfl⟩

/-- C6 (amended): `validatePayload` only (1) requires truthiness for keys
whose declared type is the marker 'required' and a matching `typeof` for keys
whose supplied value is truthy — a payload missing a key declared with a
concrete primitive type passes; (2) a payload that DOES fail validation gets
an error ack with no state change and no broadcast; but (3) a `sendMessage`
payload lacking `roomId` (with a valid message) passes validation and is
fully processed: success ack, reputation recorded, and a broadcast addressed
to the undefined room. -/
theorem sendMessage_validation_behaviour :
    (∀ data schema, validatePayload data schema = true
        ↔ ∀ kt ∈ schema,
            (kt.2 = "required" → truthy (getKey data kt.1) = true)
              ∧ (truthy (getKey data kt.1) = true → kt.2 ≠ "required" →
                  typeofStr (getKey data kt.1) = kt.2))
      ∧ (∀ data cu tok rl rp sm users now msgId,
          validatePayload data [("roomId", "string"), ("message", "string")]
              = false →
          sendMessageHandler data cu tok rl rp sm users now msgId
            = { ackSuccess := false, ackError := some "Invalid payload"
                rl := rl, rp := rp, sm := sm, broadcast := none
                messageData := none })
      ∧ (∀ data s u (user : User) tok rl rp sm users now msgId,
          mlookup data "roomId" = none →
          getKey data "message" = JsVal.vstr s →
          u ≠ "" →
          (checkRateLimit rl now u "message").1 = true →
          jsSubstring (sanitize (JsVal.vstr s)) 1000 ≠ "" →
          (decide ((jsSubstring (sanitize (JsVal.vstr s)) 1000).length > 500)
              || hasRun11 (jsSubstring (sanitize (JsVal.vstr s)) 1000).data) = false →
          mlookup users u = some user →
          (sendMessageHandler data (some u) tok rl rp sm users now
              msgId).ackSuccess = true
            ∧ (sendMessageHandler data (some u) tok rl rp sm users now
                msgId).broadcast
              = some (JsVal.vundef,
                  { id := msgId, roomId := JsVal.vundef, senderId := u
                    senderName := user.username
                    message := jsSubstring (sanitize (JsVal.vstr s)) 1000
                    timestamp := now })
            ∧ (sendMessageHandler data (some u) tok rl rp sm users now
                msgId).rp = recordMessage rp now u false) := by
  refine ⟨validatePayload_iff, ?_, ?_⟩
  · intro data cu tok rl rp sm users now msgId hval
    unfold sendMessageHandler
    rw [hval]
    rfl
  · intro data s u user tok rl rp sm users now msgId hroom hmsg hu hrl hne
      hspam huser
    have hrid : getKey data "roomId" = JsVal.vundef := by
      simp [getKey, hroom]
    have hval : validatePayload data
        [("roomId", "string"), ("message", "string")] = true := by
      rw [validatePayload_iff]
      intro kt hkt
      simp only [List.mem_cons, List.not_mem_nil, or_false] at hkt
      rcases hkt with hkt | hkt
      · subst hkt
        constructor
        · intro hreq
          exact absurd hreq (by decide)
        · intro htr
          rw [hrid] at htr
          cases htr
      · subst hkt
        constructor
        · intro hreq
          exact absurd hreq (by decide)
        · intro _ _
          rw [hmsg]
          rfl
    have hju : jsTruthyOpt (some u) = true := by
      simp [jsTruthyOpt, hu]
    have heq : sendMessageHandler data (some u) tok rl rp sm users now msgId
        = { ackSuccess := true, ackError := none
            rl := (checkRateLimit rl now u "message").2
            rp := recordMessage rp now u false
            sm := (if jsTruthyOpt tok then
                addMessageToBuffer sm (tok.getD "")
                  { id := msgId, roomId := JsVal.vundef, senderId := u
                    senderName := user.username
                    message := jsSubstring (sanitize (JsVal.vstr s)) 1000
                    timestamp := now }
              else sm)
            broadcast := some (JsVal.vundef,
              { id := msgId, roomId := JsVal.vundef, senderId := u
                senderName := user.username
                message := jsSubstring (sanitize (JsVal.vstr s)) 1000
                timestamp := now })
            messageData := some
              { id := msgId, roomId := JsVal.vundef, senderId := u
                senderName := user.username
                message := jsSubstring (sanitize (JsVal.vstr s)) 1000
                timestamp := now } } := by
      unfold sendMessageHandler
      simp only [hval, hju, hrl, hmsg, hrid, huser, hspam, hne,
        Option.getD_some, Bool.not_true, Bool.false_eq_true, if_false,
        eq_self_iff_true]
    exact ⟨by rw [heq], by rw [heq], by rw [heq]⟩

/-- Witness for the amended C6 at the concrete roomId-less payload. -/
theorem sendMessage_validation_behaviour_witness :
    (validatePayload dataC6
        [("roomId", "string"), ("message", "string")] = true
      ↔ ∀ kt ∈ [("roomId", "string"), ("message", "string")],
          (kt.2 = "required" → truthy (getKey dataC6 kt.1) = true)
            ∧ (truthy (getKey dataC6 kt.1) = true → kt.2 ≠ "required" →
                typeofStr (getKey dataC6 kt.1) = kt.2))
      ∧ ((sendMessageHandler dataC6 (some "u1") (some "tok") [] [] smC6
            usersC6 7 "m1").ackSuccess = true
          ∧ (sendMessageHandler dataC6 (some "u1") (some "tok") [] [] smC6
              usersC6 7 "m1").broadcast
            = some (JsVal.vundef,
                { id := "m1", roomId := JsVal.vundef, senderId := "u1"
                  senderName := userC6.username
                  message := jsSubstring (sanitize (JsVal.vstr "hi")) 1000
                  timestamp := 7 })
          ∧ (sendMessageHandler dataC6 (some "u1") (some "tok") [] [] smC6
              usersC6 7 "m1").rp = recordMessage [] 7 "u1" false) :=
  ⟨(sendMessage_validation_behaviour.1 dataC6
      [("roomId", "string"), ("message", "string")]),
   (sendMessage_validation_behaviour.2.2 dataC6 "hi" "u1" userC6 (some "tok")
      [] [] smC6 usersC6 7 "m1" rfl rfl (by decide) rfl (by decide)
      (by decide) rfl)⟩

/-- C10: the `reportUser` handler applies the reputation penalty to whatever
`targetUserId` string the payload supplies — lazily creating a fresh record
(score 100, immediately penalised to 85, reportCount 1) for an unknown
identifier, or decrementing an existing record's score by 15 (floored at 0)
with reportCount incremented — never consulting the `users` map, and still
acknowledging success to the reporter. -/
theorem reportUser_penalizes_arbitrary_target (data : List (String × JsVal))
    (u tgt rs : String) (rl : RLMap) (rp : RepMap)
    (users : List (String × User)) (tr : Int) (fu : List String) (now : Int)
    (hdata : getKey data "targetUserId" = JsVal.vstr tgt)
    (hreason : getKey data "reason" = JsVal.vstr rs)
    (hu : u ≠ "")
    (hrl : (checkRateLimit rl now u "report").1 = true) :
    (reportUserHandler data (some u) rl rp users tr fu now).ackSuccess = true
      ∧ (reportUserHandler data (some u) rl rp users tr fu now).ackMessage
          = some "Report submitted. Thank you."
      ∧ (mlookup rp tgt = none →
          mlookup (reportUserHandler data (some u) rl rp users tr fu
              now).rp tgt
            = some ⟨85, 0, 0, 0, 1, 0, now, now⟩)
      ∧ (∀ r0, mlookup rp tgt = some r0 →
          mlookup (reportUserHandler data (some u) rl rp users tr fu
              now).rp tgt
            = some { r0 with
                reportCount := r0.reportCount + 1
                score := max 0 (r0.score - 15)
                lastActivity := now })
      ∧ (∀ users2, reportUserHandler data (some u) rl rp users2 tr fu now
          = reportUserHandler data (some u) rl rp users tr fu now) := by
  have hval : validatePayload data
      [("targetUserId", "string"), ("reason", "string")] = true := by
    rw [validatePayload_iff]
    intro kt hkt
    simp only [List.mem_cons, List.not_mem_nil, or_false] at hkt
    rcases hkt with hkt | hkt
    · subst hkt
      refine ⟨fun hreq => absurd hreq (by decide), fun _ _ => ?_⟩
      rw [hdata]
      rfl
    · subst hkt
      refine ⟨fun hreq => absurd hreq (by decide), fun _ _ => ?_⟩
      rw [hreason]
      rfl
  have hju : jsTruthyOpt (some u) = true := by
    simp [jsTruthyOpt, hu]
  have heq : reportUserHandler data (some u) rl rp users tr fu now
      = { ackSuccess := true, ackError := none
          ackMessage := some "Report submitted. Thank you."
          rl := (checkRateLimit rl now u "report").2
          rp := recordReport rp now tgt, totalReports := tr + 1
          flaggedUsers := sadd fu tgt } := by
    unfold reportUserHandler
    simp only [hval, hju, hrl, hdata, Option.getD_some, Bool.not_true,
      Bool.false_eq_true, if_false]
  refine ⟨by rw [heq], by rw [heq], ?_, ?_, ?_⟩
  · intro hnone
    rw [heq]
    simp only
    unfold recordReport getReputation
    rw [hnone]
    simp only
    rw [mset_mset, mlookup_mset_self]
    norm_num [freshRep, INITIAL_SCORE]
  · intro r0 hr0
    rw [heq]
    simp only
    unfold recordReport getReputation
    rw [hr0]
    simp only
    rw [mlookup_mset_self]
  · intro users2
    rfl

/-- Witness for C10: reporting the unknown identifier "ghost" creates its
record at score 85 with one report, and the handler acks success. -/
theorem reportUser_penalizes_arbitrary_target_witness :
    (reportUserHandler [("targetUserId", JsVal.vstr "ghost"),
        ("reason", JsVal.vstr "spam")] (some "u1") [] [] usersC6 0 [] 20000
        ).ackSuccess = true
      ∧ (reportUserHandler [("targetUserId", JsVal.vstr "ghost"),
          ("reason", JsVal.vstr "spam")] (some "u1") [] [] usersC6 0 []
          20000).ackMessage = some "Report submitted. Thank you."
      ∧ (mlookup ([] : RepMap) "ghost" = none →
          mlookup (reportUserHandler [("targetUserId", JsVal.vstr "ghost"),
              ("reason", JsVal.vstr "spam")] (some "u1") [] [] usersC6 0 []
              20000).rp "ghost"
            = some ⟨85, 0, 0, 0, 1, 0, 20000, 20000⟩)
      ∧ (∀ r0, mlookup ([] : RepMap) "ghost" = some r0 →
          mlookup (reportUserHandler [("targetUserId", JsVal.vstr "ghost"),
              ("reason", JsVal.vstr "spam")] (some "u1") [] [] usersC6 0 []
              20000).rp "ghost"
            = some { r0 with
                reportCount := r0.reportCount + 1
                score := max 0 (r0.score - 15)
                lastActivity := 20000 })
      ∧ (∀ users2, reportUserHandler [("targetUserId", JsVal.vstr "ghost"),
            ("reason", JsVal.vstr "spam")] (some "u1") [] [] users2 0 [] 20000
          = reportUserHandler [("targetUserId", JsVal.vstr "ghost"),
              ("reason", JsVal.vstr "spam")] (some "u1") [] [] usersC6 0 []
              20000) :=
  reportUser_penalizes_arbitrary_target
    [("targetUserId", JsVal.vstr "ghost"), ("reason", JsVal.vstr "spam")]
    "u1" "ghost" "spam" [] [] usersC6 0 [] 20000 rfl rfl (by decide) rfl

end AnonChat
